import Mathlib

/-!
Verification development for the superior-agents security module.

The definitions below are a shallow embedding of the Python sources
(src/agent/src/flows/security.py, src/agent/src/helper.py,
src/agent/scripts/starter.py).  Strings are modelled as Lean strings and
all Python string primitives used by the code (strip, split, join, lower,
substring search, startswith) are re-implemented on lists of characters
with Python semantics.  Stateful orchestration code is modelled as pure
state-passing over an explicit environment (oracle) that supplies the
results of every external call (model generation, sandbox execution,
database, sensor, RAG service), together with an event trace recording
the externally visible calls.
-/

set_option maxRecDepth 10000

namespace SecFlow

/-! ### Character-level primitives (Python string semantics) -/

/-- Python whitespace for the ASCII range, as matched by str.strip and
the regex class backslash-s on ASCII text: space, tab, newline, carriage
return, vertical tab, form feed. -/
def pyIsSpace (c : Char) : Bool :=
  c = ' ' || c = '\t' || c = '\n' || c = '\r' || c = '\x0b' || c = '\x0c'

/-- Does the list `l` start with the list `p`? (Python startswith.) -/
def startsWithL : (p l : List Char) → Bool
  | [], _ => true
  | _ :: _, [] => false
  | p :: ps, c :: cs => p = c && startsWithL ps cs

/-- Does `hay` contain `needle` as a contiguous sublist?
(Python `in` operator on strings.) -/
def containsSubL (needle : List Char) : List Char → Bool
  | [] => startsWithL needle []
  | c :: cs => startsWithL needle (c :: cs) || containsSubL needle cs

/-- Python str.strip (ASCII whitespace). -/
def stripL (l : List Char) : List Char :=
  ((l.dropWhile pyIsSpace).reverse.dropWhile pyIsSpace).reverse

/-- Python str.split with separator a single newline. -/
def splitNlL : List Char → List (List Char)
  | [] => [[]]
  | c :: cs =>
    if c = '\n' then [] :: splitNlL cs
    else
      match splitNlL cs with
      | [] => [[c]]
      | p :: ps => (c :: p) :: ps

/-- Python newline.join. -/
def joinNlL : List (List Char) → List Char
  | [] => []
  | [x] => x
  | x :: xs => x ++ '\n' :: joinNlL xs

/-! String-level wrappers. -/

/-- Python str.strip(). -/
def pyStrip (s : String) : String := String.mk (stripL s.data)

/-- Python s.split with a newline separator, on strings. -/
def pyLines (s : String) : List String := (splitNlL s.data).map String.mk

/-- Python newline.join on strings. -/
def pyJoinNl (ls : List String) : String := String.mk (joinNlL (ls.map String.data))

/-- Python `needle in hay`. -/
def pyContains (hay needle : String) : Bool := containsSubL needle.data hay.data

/-- Python hay.startswith(p). -/
def pyStarts (hay p : String) : Bool := startsWithL p.data hay.data

/-- Python hay.startswith((p1, p2, ...)). -/
def pyStartsAny (hay : String) (ps : List String) : Bool := ps.any (pyStarts hay)

/-- Python str.lower() (ASCII case fold, which is all the sources rely on). -/
def pyLower (s : String) : String := String.mk (s.data.map Char.toLower)

/-! ### Code Normalizer — extract_python_code and helpers
(src/agent/src/flows/security.py, lines 23-194) -/

/-- Line 28 of security.py: replace the en dash and em dash by a plain
hyphen.  The last two replace calls on that line replace a plain double
quote by itself and are therefore no-ops. -/
def unicodeFix (s : String) : String :=
  String.mk (s.data.map fun c => if c = '–' then '-' else if c = '—' then '-' else c)

/-- re.split of a run of at least 10 repetitions of `c` (the patterns on
line 31).  `cur` is the reversed current part, `run` the length of the
pending run of `c` just read.  Matches are maximal runs, scanned left to
right, exactly as the greedy regex does. -/
def splitRunsAux (c : Char) : List Char → List Char → Nat → List (List Char)
  | [], cur, run =>
    if 10 ≤ run then [cur.reverse, []]
    else [cur.reverse ++ List.replicate run c]
  | d :: ds, cur, run =>
    if d = c then splitRunsAux c ds cur (run + 1)
    else if 10 ≤ run then cur.reverse :: splitRunsAux c ds [d] 0
    else splitRunsAux c ds (d :: (List.replicate run c ++ cur)) 0

/-- re.split(sep_pattern, response) for one separator character. -/
def splitRuns (c : Char) (s : String) : List String :=
  (splitRunsAux c s.data [] 0).map String.mk

/-- Scan for the earliest occurrence of a newline followed by a closing
triple backtick (the lazy group and closing delimiter of the code-block
regex on line 41); returns the captured text and the rest after the
closing backticks. -/
def findCloseAux (acc : List Char) : List Char → Option (List Char × List Char)
  | [] => none
  | c :: cs =>
    if startsWithL ['\n', '`', '`', '`'] (c :: cs) then
      some (acc.reverse, (c :: cs).drop 4)
    else findCloseAux (c :: acc) cs

/-- Backtracking over which newline inside the whitespace run the
greedy-then-newline part of the code-block regex consumes: positions are
tried from the last newline backwards, as the greedy engine does.
`wsRev` is the still-unconsumed whitespace run, reversed; `post` is the
text after the current candidate position. -/
def tryNlChoices : List Char → List Char → Option (List Char × List Char)
  | [], _ => none
  | c :: wsRev, post =>
    if c = '\n' then
      match findCloseAux [] post with
      | some r => some r
      | none => tryNlChoices wsRev ('\n' :: post)
    else tryNlChoices wsRev (c :: post)

/-- Try to match the code-block regex of line 41 at the head of `l`:
an opening triple backtick, an optional language tag, whitespace ending
in a newline, a lazily captured body, and a newline plus closing triple
backtick. -/
def tryFence (l : List Char) : Option (List Char × List Char) :=
  if startsWithL ['`', '`', '`'] l then
    let l1 := l.drop 3
    let l2 := if startsWithL "python".data l1 then l1.drop 6 else l1
    let ws := l2.takeWhile pyIsSpace
    let post := l2.dropWhile pyIsSpace
    tryNlChoices ws.reverse post
  else none

/-- re.findall of the code-block regex: scan left to right, on a match
continue after the closing delimiter, otherwise advance one character.
The fuel starts at the text length and bounds both kinds of progress. -/
def findBlocksAux : Nat → List Char → List String
  | 0, _ => []
  | _ + 1, [] => []
  | fuel + 1, c :: cs =>
    match tryFence (c :: cs) with
    | some (cap, rest) => String.mk cap :: findBlocksAux fuel rest
    | none => findBlocksAux fuel cs

/-- All captures of the markdown code-block regex, in order (line 42). -/
def findCodeBlocks (s : String) : List String := findBlocksAux s.data.length s.data

/-- _is_valid_python_code (security.py lines 98-120). -/
def _is_valid_python_code (code : String) : Bool :=
  if code = "" || code.data.length < 20 then false
  else
    let pythonIndicators :=
      ["import ", "def ", "print(", "if ", "for ", "class ", "return ", "try:"]
    if !pythonIndicators.any (pyContains code) then false
    else
      let lines := pyLines (pyStrip code)
      let firstFewLines := pyLower (String.intercalate " " (lines.take 5))
      if pyContains firstFewLines "#!/usr/bin/env python" ||
         pyContains firstFewLines "import " ||
         pyContains firstFewLines "from " then true
      else (lines.take 10).any (fun l => pyStarts (pyStrip l) "def ")

/-- The module-usage triggers of _complete_python_code (lines 134-147)
with the import statement each one requires, in source order. -/
def importTriggers : List (List String × String) :=
  [ (["re.", "regex", "match("], "import re"),
    (["os.", "getenv"], "import os"),
    (["json.", "dumps(", "loads("], "import json"),
    (["time.", "sleep("], "import time"),
    (["requests.", "get(", "post("], "import requests"),
    (["logging."], "import logging"),
    (["load_dotenv"], "from dotenv import load_dotenv") ]

/-- The needed_imports set of _complete_python_code. -/
def neededImports (fullCode : String) : List String :=
  (importTriggers.filter (fun t => t.1.any (pyContains fullCode))).map (·.2)

/-- Ascending insertion into a sorted list of strings (code-point order,
like Python sorted on strings). -/
def insertSorted (x : String) : List String → List String
  | [] => [x]
  | y :: ys => if x < y then x :: y :: ys else y :: insertSorted x ys

/-- sorted(missing_imports) of _complete_python_code. -/
def sortStrings (l : List String) : List String := l.foldr insertSorted []

/-- The existing-import scan of _complete_python_code (lines 149-161):
collect stripped import lines and track import_end_idx, stopping at the
first non-empty line that is neither an import, a shebang, nor a
comment. -/
def scanImports : List String → List String → Nat → Nat → (List String × Nat)
  | [], acc, _, endIdx => (acc.reverse, endIdx)
  | l :: ls, acc, i, endIdx =>
    let s := pyStrip l
    if pyStarts s "import " || pyStarts s "from " then
      scanImports ls (s :: acc) (i + 1) (i + 1)
    else if pyStarts s "#!/" then scanImports ls acc (i + 1) (i + 1)
    else if s ≠ "" && !pyStarts s "#" then (acc.reverse, endIdx)
    else scanImports ls acc (i + 1) endIdx

/-- The insertion-point scan for the load_dotenv() call
(lines 183-188): like the import scan but without the shebang clause and
without collecting lines. -/
def dotenvInsertIdx : List String → Nat → Nat → Nat
  | [], _, idx => idx
  | l :: ls, i, idx =>
    let s := pyStrip l
    if pyStarts s "import " || pyStarts s "from " then dotenvInsertIdx ls (i + 1) (i + 1)
    else if s ≠ "" && !pyStarts s "#" then idx
    else dotenvInsertIdx ls (i + 1) idx

/-- _complete_python_code (security.py lines 122-194). -/
def _complete_python_code (code : String) : String :=
  if code = "" then code
  else
    let lines := pyLines code
    let fullCode := pyJoinNl lines
    let needed := neededImports fullCode
    let scanned := scanImports lines [] 0 0
    let existing := scanned.1
    let importEndIdx := scanned.2
    let missing := needed.filter (fun imp => !existing.contains imp)
    let lines' :=
      if missing.isEmpty then lines
      else
        lines.take importEndIdx ++ sortStrings missing ++
          (if importEndIdx < lines.length then [""] ++ lines.drop importEndIdx else [])
    let result := pyStrip (pyJoinNl lines')
    if pyContains result "from dotenv import load_dotenv" &&
       !pyContains result "load_dotenv()" then
      let resultLines := pyLines result
      let insertIdx := dotenvInsertIdx resultLines 0 0
      pyJoinNl (resultLines.take insertIdx ++ ["\nload_dotenv()"] ++ resultLines.drop insertIdx)
    else result

/-- Modelled from the spec: generate_fallback_security_code is called by
extract_python_code (security.py line 94) but its definition is not among
the provided repository sources.  Spec section 4.1 step 4 says the
Normalizer then returns a hardcoded fallback script rather than prose;
modelled as a fixed script constant. -/
def generate_fallback_security_code : String :=
  "import os\nimport json\n\ndef main():\n    print(json.dumps(\x7b\"status\": \"fallback security scan\"\x7d))\n\nif __name__ == \"__main__\":\n    main()"

/-- The four separator characters of line 31, in source order. -/
def separatorChars : List Char := ['─', '-', '=', '_']

/-- The separator-split strategy (lines 33-38): the first separator
pattern that splits the response into at least three parts with a
Python-valid middle part wins; returns the stripped middle part. -/
def sepCandidate (response : String) : Option String :=
  (separatorChars.filterMap (fun c =>
    let parts := splitRuns c response
    if 3 ≤ parts.length then
      match parts with
      | _ :: p1 :: _ =>
        let potential := pyStrip p1
        if _is_valid_python_code potential then some potential else none
      | _ => none
    else none)).head?

/-- The fenced-code-block strategy (lines 40-47): the first markdown
block whose stripped contents are Python-valid wins. -/
def fenceCandidate (response : String) : Option String :=
  ((findCodeBlocks response).map pyStrip).find? _is_valid_python_code

/-- The primary start-line condition of the line-scan strategy
(lines 55-60). -/
def primaryStart (lineStripped : String) : Bool :=
  pyStartsAny lineStripped ["#!/usr/bin/env python", "import ", "from "] ||
  pyStartsAny lineStripped ["def main()", "def run_", "def analyze_", "def check_"]

/-- The secondary start-line condition (lines 63-68). -/
def secondaryStart (lineStripped : String) : Bool :=
  pyStartsAny lineStripped ["def ", "class ", "if __name__"]

/-- start_idx of the line-scan strategy. -/
def findStartIdx (lines : List String) : Option Nat :=
  match lines.findIdx? (fun l => primaryStart (pyStrip l)) with
  | some i => some i
  | none => lines.findIdx? (fun l => secondaryStart (pyStrip l))

/-- The explanatory-prose stop markers of lines 74-76. -/
def proseMarkers : List String :=
  ["Usage Notes:", "How the", "Chain of", "This code", "The script",
   "Before running", "NOTE:", "Explanation:", "You can extend",
   "Install required", "Set the environment"]

/-- One stop-line test of the end-boundary loop (lines 72-83): a prose
marker that is not a comment, or a separator run at the start of the
stripped line (re.match of a separator pattern). -/
def isStopLine (lineStripped : String) : Bool :=
  (pyStartsAny lineStripped proseMarkers && !pyStarts lineStripped "#") ||
  separatorChars.any (fun c => startsWithL (List.replicate 10 c) lineStripped.data)

/-- end_idx of the line-scan strategy: first stop line at index at least
start_idx + 10, else the number of lines. -/
def findEndIdx (lines : List String) (startIdx : Nat) : Nat :=
  match (lines.drop (startIdx + 10)).findIdx? (fun l => isStopLine (pyStrip l)) with
  | some j => startIdx + 10 + j
  | none => lines.length

/-- The line-scan strategy (lines 49-89): locate a start line, cut at the
end boundary, and return the stripped joined slice. -/
def lineCandidate (response : String) : Option String :=
  let lines := pyLines response
  match findStartIdx lines with
  | none => none
  | some startIdx =>
    let endIdx := findEndIdx lines startIdx
    some (pyStrip (pyJoinNl ((lines.drop startIdx).take (endIdx - startIdx))))

/-- The loose explanatory phrases of line 92. -/
def loosePhrases : List String :=
  ["below is", "here is", "this code", "usage notes:", "how the"]

/-- Line 92: any loose phrase occurs in the lowercased response. -/
def hasLoosePhrases (response : String) : Bool :=
  loosePhrases.any (pyContains (pyLower response))

/-- extract_python_code (security.py lines 23-96): unicode fix, then the
extraction strategies in priority order, each feeding its candidate
through _complete_python_code; otherwise the fallback script on loose
explanatory phrases, or the stripped response. -/
def extract_python_code (aiResponse : String) : String :=
  let response := unicodeFix aiResponse
  match sepCandidate response with
  | some code => _complete_python_code code
  | none =>
    match fenceCandidate response with
    | some code => _complete_python_code code
    | none =>
      match lineCandidate response with
      | some code => _complete_python_code code
      | none =>
        if hasLoosePhrases response then generate_fallback_security_code
        else pyStrip response

/-! ### assisted_flow embedding (src/agent/src/flows/security.py, lines 196-605)

The flow is modelled as a pure function from an argument record and an
environment (an oracle supplying the result of every external call) to an
outcome holding the event trace of externally visible calls, the two chat
histories, and the exit mode. -/

/-- A chat-history delta: one ChatHistory fragment returned by a
generation call, modelled abstractly by a label.  Modelled from the spec
(section 3): ChatHistory is an ordered sequence of turns supporting
order-preserving concatenation; the class itself is outside the provided
sources, so a history is modelled as the list of appended deltas. -/
abbrev ChatDelta := Nat

/-- A metric snapshot, as returned by the sensor metric function: a
string-keyed mapping read with .get(key, default).  The numeric values
(security_score and counters) are modelled as integers. -/
abbrev MetricState := List (String × Int)

/-- Python dict .get(key, default) on a metric state. -/
def metricGet (m : MetricState) (k : String) (dflt : Int) : Int :=
  match m.find? (fun p => p.1 = k) with
  | some p => p.2
  | none => dflt

/-- json.dumps of a metric state (always a braced, hence non-empty,
rendering). -/
def jsonDumps (m : MetricState) : String :=
  "\x7b" ++ String.intercalate ", "
    (m.map fun p => "\"" ++ p.1 ++ "\": " ++ toString p.2) ++ "\x7d"

/-- str() of a metric state (Python dict repr, single-quoted keys). -/
def pyStrDict (m : MetricState) : String :=
  "\x7b" ++ String.intercalate ", "
    (m.map fun p => "\x27" ++ p.1 ++ "\x27: " ++ toString p.2) ++ "\x7d"

/-- StrategyData as used by the flow: the summarized description and the
parameters mapping of a retrieved strategy. -/
structure StrategyData where
  summarizedDesc : String
  parameters : List (String × String)
deriving Repr, DecidableEq

/-- Python dict .get(key, default) on strategy parameters. -/
def paramGet (ps : List (String × String)) (k : String) (dflt : String) : String :=
  match ps.find? (fun p => p.1 = k) with
  | some p => p.2
  | none => dflt

/-- The rag_result summary/state triple of lines 262-305. -/
structure RagResult where
  summary : String
  startMetricState : String
  endMetricState : String
deriving Repr, DecidableEq

/-- Externally visible calls made by assisted_flow, in order. -/
inductive Ev where
  | insertWalletSnapshot (snapshotId agentId : String) (totalValueUsd : Int) (assets : String)
  | ragRelevantStrategy (query : String)
  | genCall (stage : Nat)
  | regenCall (stage : Nat) (errors : String)
  | runCodeInCon (code : String) (label : String)
  | insertChatHistory (sessionId : String) (history : List ChatDelta)
  | insertStrategyAndResult (agentId : String) (summarizedDesc fullDesc : String)
      (startMetricState endMetricState : String) (summarizedCode codeOutput : String)
      (prevStrat notifStr : String) (strategyResult : String)
deriving Repr, DecidableEq

/-- The outcome of one attempt of one stage, as supplied by the
environment: whether the generation result unwraps, the unwrapped text
and the chat-history delta the generation call returned, and whether the
sandbox run unwraps and with what output. -/
structure Attempt where
  genOk : Bool
  genErr : String
  genText : String
  genDelta : ChatDelta
  execOk : Bool
  execErr : String
  execOut : String

/-- The per-stage shape of the retry loop: stage number (1 analysis,
2 strategy, 3 threat research, 4 remediation), whether the stage runs its
code in the sandbox (the strategy stage does not), whether the stage
appends its delta to the in-session chat history (the remediation stage
does not: line 526 is commented out while line 527 still appends to the
training history), and the sandbox label. -/
structure StageCfg where
  stage : Nat
  hasExec : Bool
  appendChat : Bool
  label : String

/-- The mutable state threaded through the retry loops of assisted_flow:
the loop flags and error accumulator, the current new_ch delta, the last
code text, the stage output (None until assigned, modelling the Python
local), the two chat histories, the training-only appends
(instrumentation recording deltas appended to the training history but
not the in-session one), and the event trace. -/
structure LoopSt where
  success : Bool
  regen : Bool
  errAcc : String
  newCh : ChatDelta
  code : String
  output : Option String
  chat : List ChatDelta
  training : List ChatDelta
  trainOnly : List ChatDelta
  trace : List Ev

/-- One iteration of a stage's for-range(3) retry body.  A completed
stage (success) models the break: later iterations do nothing.  On a
regen attempt, regen_on_error is called with the accumulated errors and
new_ch is left unchanged; on a first attempt the generation call returns
a fresh delta into new_ch before unwrapping.  A failed unwrap of either
the generation or the sandbox run sets regen and newline-appends the
error (lines 379-386 and the three analogous handlers). -/
def loopStep (cfg : StageCfg) (a : Attempt) (st : LoopSt) : LoopSt :=
  if st.success then st
  else
    let st1 :=
      if st.regen then { st with trace := st.trace ++ [Ev.regenCall cfg.stage st.errAcc] }
      else { st with trace := st.trace ++ [Ev.genCall cfg.stage], newCh := a.genDelta }
    if !a.genOk then
      { st1 with regen := true, errAcc := st1.errAcc ++ "\n" ++ a.genErr }
    else
      let st2 :=
        if cfg.appendChat then
          { st1 with chat := st1.chat ++ [st1.newCh], training := st1.training ++ [st1.newCh] }
        else
          { st1 with training := st1.training ++ [st1.newCh],
                     trainOnly := st1.trainOnly ++ [st1.newCh] }
      if cfg.hasExec then
        let code := extract_python_code a.genText
        let st3 := { st2 with code := code,
                              trace := st2.trace ++ [Ev.runCodeInCon code cfg.label] }
        if a.execOk then { st3 with output := some a.execOut, success := true }
        else { st3 with regen := true, errAcc := st3.errAcc ++ "\n" ++ a.execErr }
      else
        { st2 with code := a.genText, output := some a.genText, success := true }

/-- A stage's bounded retry loop: exactly three iterations (range(3)). -/
def runLoop (cfg : StageCfg) (o : Nat → Attempt) (st : LoopSt) : LoopSt :=
  loopStep cfg (o 2) (loopStep cfg (o 1) (loopStep cfg (o 0) st))

/-- Analysis stage (lines 330-390). -/
def analysisCfg : StageCfg := ⟨1, true, true, "security_analysis_code"⟩

/-- Strategy stage (lines 395-434): no sandbox run. -/
def strategyCfg : StageCfg := ⟨2, false, true, ""⟩

/-- Threat-research stage (lines 439-488). -/
def researchCfg : StageCfg := ⟨3, true, true, "threat_intelligence_research"⟩

/-- Remediation stage (lines 493-545): its delta goes only to the
training history. -/
def remediationCfg : StageCfg := ⟨4, true, false, "security_implementation_code"⟩

/-- The flow arguments used by the modelled behavior. -/
structure FlowArgs where
  sessionId : String
  agentId : String
  metricName : String
  prevStrat : Option StrategyData
  notifStr : String

/-- The oracle for every external call assisted_flow makes: sensor
readings at cycle start and end, the nanoid values, the RAG retrieval
outcome (used only when the notification string is non-empty), the
prepare_system delta, each stage's attempt results, and the summarizer. -/
structure FlowEnv where
  metricStart : MetricState
  metricEnd : MetricState
  nanoid4 : String
  nanoid8 : String
  ragOutcome : Except String (List StrategyData)
  prepareDelta : ChatDelta
  analysisAttempts : Nat → Attempt
  strategyAttempts : Nat → Attempt
  researchAttempts : Nat → Attempt
  remediationAttempts : Nat → Attempt
  summarize : List String → String

/-- How assisted_flow exits: normal completion, the early return of an
exhausted non-remediation stage (lines 388-390, 432-434, 486-488), or the
UnboundLocalError raised on line 552 when the remediation stage exhausted
its attempts and quarantine_code_output was never assigned. -/
inductive FlowExit where
  | completed
  | earlyReturn (stage : Nat)
  | unboundLocalError
deriving Repr, DecidableEq

/-- The observable outcome of one assisted_flow execution.
remediationDeltas records the deltas appended to the training history but
not to the in-session history, and ragResult the summary/state triple the
RAG block produced. -/
structure FlowOutcome where
  exit : FlowExit
  trace : List Ev
  chat : List ChatDelta
  training : List ChatDelta
  remediationDeltas : List ChatDelta
  ragResult : RagResult
deriving Repr, DecidableEq

/-- The events before the RAG call: the start wallet snapshot is written
only when the metric name is "security" (lines 245-251). -/
def flowTrace0 (args : FlowArgs) (env : FlowEnv) : List Ev :=
  if args.metricName = "security" then
    [Ev.insertWalletSnapshot (env.nanoid4 ++ "-" ++ args.sessionId ++ "-security")
      args.agentId (metricGet env.metricStart "security_score" 0 * 100)
      (pyStrDict env.metricStart)]
  else []

/-- The RAG call of lines 265-269: performed only when the notification
string is non-empty; an empty notification string yields an empty
related-strategies list without any query. -/
def flowRagCall (args : FlowArgs) (env : FlowEnv) :
    List Ev × Except String (List StrategyData) :=
  if args.notifStr ≠ "" then ([Ev.ragRelevantStrategy args.notifStr], env.ragOutcome)
  else ([], Except.ok [])

/-- The rag_result of lines 262-305: the most related strategy's summary
and metric states, the fixed no-previous-strategies placeholder on an
empty result, or the error placeholder when retrieval raised. -/
def flowRagResult (args : FlowArgs) (env : FlowEnv) : RagResult :=
  match (flowRagCall args env).2 with
  | Except.ok related =>
    match related with
    | mostRelated :: _ =>
      ⟨mostRelated.summarizedDesc,
       paramGet mostRelated.parameters "start_metric_state" "",
       paramGet mostRelated.parameters "end_metric_state" ""⟩
    | [] =>
      ⟨"No previous security strategies found...",
       "No previous security state available...",
       "No previous security results available..."⟩
  | Except.error _ =>
    ⟨"Error retrieving security strategies from RAG...",
     "Error retrieving previous security state...",
     "Error retrieving previous security results..."⟩

/-- The state entering the analysis loop: both histories hold the
prepare_system delta (lines 318-326). -/
def flowSt0 (args : FlowArgs) (env : FlowEnv) : LoopSt :=
  { success := false, regen := false, errAcc := "", newCh := env.prepareDelta,
    code := "", output := none, chat := [env.prepareDelta],
    training := [env.prepareDelta], trainOnly := [],
    trace := flowTrace0 args env ++ (flowRagCall args env).1 }

/-- The state after the analysis loop (lines 330-387). -/
def flowStA (args : FlowArgs) (env : FlowEnv) : LoopSt :=
  runLoop analysisCfg env.analysisAttempts (flowSt0 args env)

/-- The state after the strategy loop (lines 395-430); each stage resets
the loop flags, the error accumulator and its own output variable. -/
def flowStS (args : FlowArgs) (env : FlowEnv) : LoopSt :=
  runLoop strategyCfg env.strategyAttempts
    { flowStA args env with success := false, regen := false, errAcc := "", output := none }

/-- The state after the threat-research loop (lines 439-484). -/
def flowStR (args : FlowArgs) (env : FlowEnv) : LoopSt :=
  runLoop researchCfg env.researchAttempts
    { flowStS args env with success := false, regen := false, errAcc := "", output := none }

/-- The state after the remediation loop (lines 493-545). -/
def flowStQ (args : FlowArgs) (env : FlowEnv) : LoopSt :=
  runLoop remediationCfg env.remediationAttempts
    { flowStR args env with success := false, regen := false, errAcc := "", output := none }

/-- assisted_flow (security.py lines 196-605): start snapshot (only when
the metric name is "security", lines 245-251), RAG retrieval with
placeholder substitution (262-305), system-prompt preparation (318-326),
the four staged retry loops, and — only when quarantine_code_output was
assigned — chat-history persistence, end snapshot and strategy insert
(552-604).  When the remediation loop never assigned its output, the
f-string of line 552 raises UnboundLocalError before any persistence. -/
def assisted_flow (args : FlowArgs) (env : FlowEnv) : FlowOutcome :=
  let ragResult := flowRagResult args env
  let stA := flowStA args env
  if !stA.success then
    ⟨FlowExit.earlyReturn 1, stA.trace, stA.chat, stA.training, stA.trainOnly, ragResult⟩
  else
    let stS := flowStS args env
    if !stS.success then
      ⟨FlowExit.earlyReturn 2, stS.trace, stS.chat, stS.training, stS.trainOnly, ragResult⟩
    else
      let strategyOutput := stS.output.getD ""
      let stR := flowStR args env
      if !stR.success then
        ⟨FlowExit.earlyReturn 3, stR.trace, stR.chat, stR.training, stR.trainOnly, ragResult⟩
      else
        let stQ := flowStQ args env
        match stQ.output with
        | none =>
          ⟨FlowExit.unboundLocalError, stQ.trace, stQ.chat, stQ.training,
            stQ.trainOnly, ragResult⟩
        | some quarantineCodeOutput =>
          let trace2 := stQ.trace ++ [Ev.insertChatHistory args.sessionId stQ.training]
          let trace3 := trace2 ++
            [Ev.insertWalletSnapshot (env.nanoid8 ++ "-" ++ args.sessionId ++ "-security")
              args.agentId (metricGet env.metricEnd "security_score" 0 * 100)
              (jsonDumps env.metricEnd)]
          let summarizedCode := env.summarize
            [stQ.code, "Summarize the security implementation code above in points"]
          let trace4 := trace3 ++
            [Ev.insertStrategyAndResult args.agentId
              (env.summarize [strategyOutput]) strategyOutput
              (jsonDumps env.metricStart) (jsonDumps env.metricEnd)
              summarizedCode quarantineCodeOutput
              (match args.prevStrat with | some p => p.summarizedDesc | none => "")
              args.notifStr
              (if !stQ.success then "failed" else "success")]
          ⟨FlowExit.completed, trace4, stQ.chat, stQ.training, stQ.trainOnly, ragResult⟩

/-- Does an event record an insert_strategy_and_result call? -/
def isStrategyInsert : Ev → Bool
  | Ev.insertStrategyAndResult _ _ _ _ _ _ _ _ _ _ => true
  | _ => false

/-- Does an event record an insert_wallet_snapshot call? -/
def isSnapshotInsert : Ev → Bool
  | Ev.insertWalletSnapshot _ _ _ _ => true
  | _ => false

/-- Does an event record a RAG relevant-strategy query? -/
def isRagQuery : Ev → Bool
  | Ev.ragRelevantStrategy _ => true
  | _ => false

/-- Does an event record a regen_on_error call? -/
def isRegenCall : Ev → Bool
  | Ev.regenCall _ _ => true
  | _ => false

/-- Does an event record a generation attempt (first-attempt or regen)? -/
def isAttemptCall : Ev → Bool
  | Ev.genCall _ => true
  | Ev.regenCall _ _ => true
  | _ => false

/-- Every insert_strategy_and_result event in the trace carries non-empty
start and end metric-state parameters (vacuously true of other events). -/
def strategyInsertHasStates : Ev → Bool
  | Ev.insertStrategyAndResult _ _ _ startS endS _ _ _ _ _ => startS ≠ "" && endS ≠ ""
  | _ => true

/-- An attempt that the retry loop treats as failed: the generation
unwrap fails, or (for a sandbox stage) the execution unwrap fails. -/
def attemptFails (cfg : StageCfg) (a : Attempt) : Bool :=
  !a.genOk || (cfg.hasExec && !a.execOk)

/-- Does an event record a remediation-stage sandbox run? -/
def isRemediationRun : Ev → Bool
  | Ev.runCodeInCon _ "security_implementation_code" => true
  | _ => false

/-! ### Cycle orchestrator embedding
(src/agent/scripts/starter.py, lines 63-169 and 172-252) -/

/-- The monitoring-status snapshot read from the background monitor
(starter.py lines 206-211 and 232-237). -/
structure MonitorStatus where
  threatsDiscovered : Nat
  blacklistedWallets : Nat
  socialMediaScans : Nat
  databaseUpdates : Nat
  lastUpdate : String
deriving Repr, DecidableEq

/-- An exception escaping the cycle body, as classified by the two
except clauses of lines 246-252: the user interrupt, or any other
exception (Python's except Exception). -/
inductive CycleExc where
  | keyboardInterrupt
  | error (msg : String)
deriving Repr, DecidableEq

/-- Externally visible actions of one orchestrator iteration. -/
inductive CycleEv where
  | saveResultBatch
  | monitorStatusQuery
  | flowRun (notifUsed : String)
  | addCycleCount
  | statusLogged
  | statusLogFailed
  | intervalSleep (seconds : Nat)
  | cooldownSleep (seconds : Nat)
  | stoppedByUser
deriving Repr, DecidableEq

deriving instance DecidableEq for Except

/-- The oracle for one cycle's external calls: the fetched previous
strategy, the fetched notification digest, the background monitor's
status read result (an error models a raising get_monitoring_status,
caught at both call sites), and whether the flow call itself raises. -/
structure CycleEnv where
  prevStrat : Option StrategyData
  notifStr : String
  monitorStatus : Except String MonitorStatus
  flowRaises : Option CycleExc
deriving Repr, DecidableEq

/-- The one-paragraph threat summary of lines 209-211. -/
def threatSummary (st : MonitorStatus) : String :=
  "Background Monitor Alert: " ++ toString st.threatsDiscovered ++
  " new threats detected. " ++ "Tracking " ++ toString st.blacklistedWallets ++
  " blacklisted wallets. " ++ "Last update: " ++ st.lastUpdate

/-- Result of one cycle body: its events, the notification text passed
to the flow, and the exception that escaped the try block, if any. -/
structure CycleResult where
  trace : List CycleEv
  notifUsed : String
  raised : Option CycleExc
deriving Repr, DecidableEq

/-- One iteration of the while-True body (starter.py lines 186-244):
fetch the previous strategy (re-priming the RAG store when present),
fetch notifications, enhance them with background intelligence only when
the monitor reference is present (lines 203-221; a failing status read
is caught and leaves the notifications unchanged), run the flow, count
the cycle, log the monitor status every 10 cycles (lines 230-239, status
errors caught), and sleep for the configured interval.  An exception
raised by the flow escapes the body and is reported in `raised`. -/
def cycleBody (monitorRef : Bool) (cenv : CycleEnv) (cycleCount : Nat)
    (intervalSeconds : Nat) : CycleResult :=
  let trace0 : List CycleEv :=
    match cenv.prevStrat with
    | some _ => [CycleEv.saveResultBatch]
    | none => []
  let enhanced : List CycleEv × String :=
    if monitorRef then
      match cenv.monitorStatus with
      | Except.ok st =>
        if 0 < st.threatsDiscovered then
          ([CycleEv.monitorStatusQuery],
            if cenv.notifStr ≠ "" then
              threatSummary st ++ "\n\nOther notifications: " ++ cenv.notifStr
            else threatSummary st)
        else ([CycleEv.monitorStatusQuery], cenv.notifStr)
      | Except.error _ => ([CycleEv.monitorStatusQuery], cenv.notifStr)
    else ([], cenv.notifStr)
  let notifUsed := enhanced.2
  let trace1 := trace0 ++ enhanced.1 ++ [CycleEv.flowRun notifUsed]
  match cenv.flowRaises with
  | some exc => ⟨trace1, notifUsed, some exc⟩
  | none =>
    let trace2 := trace1 ++ [CycleEv.addCycleCount]
    let trace3 :=
      if cycleCount % 10 = 0 && monitorRef then
        trace2 ++ [CycleEv.monitorStatusQuery] ++
          (match cenv.monitorStatus with
            | Except.ok _ => [CycleEv.statusLogged]
            | Except.error _ => [CycleEv.statusLogFailed])
      else trace2
    ⟨trace3 ++ [CycleEv.intervalSleep intervalSeconds], notifUsed, none⟩

/-- The outcome of running the orchestrator loop over a finite window of
cycle environments: the concatenated trace, whether the loop exited via
the KeyboardInterrupt break, how many cycles were entered, and the
notification text each flow run received (instrumentation). -/
structure OrchOutcome where
  trace : List CycleEv
  stopped : Bool
  processed : Nat
  notifsUsed : List String
deriving Repr, DecidableEq

/-- run_cycle_with_background_monitor's while-True loop (lines 185-252),
observed over a finite list of per-cycle environments: a cycle that
raises KeyboardInterrupt breaks the loop; a cycle raising any other
exception is logged and followed by a 60-second cooldown sleep, after
which the loop continues; otherwise the loop continues directly.  The
loop never exits by itself: when the window is exhausted it is simply
still running (stopped = false). -/
def runCycles (monitorRef : Bool) (intervalSeconds : Nat) :
    List CycleEnv → Nat → OrchOutcome
  | [], _ => ⟨[], false, 0, []⟩
  | cenv :: rest, cycleCount =>
    let r := cycleBody monitorRef cenv (cycleCount + 1) intervalSeconds
    match r.raised with
    | none =>
      let k := runCycles monitorRef intervalSeconds rest (cycleCount + 1)
      ⟨r.trace ++ k.trace, k.stopped, k.processed + 1, r.notifUsed :: k.notifsUsed⟩
    | some CycleExc.keyboardInterrupt =>
      ⟨r.trace ++ [CycleEv.stoppedByUser], true, 1, [r.notifUsed]⟩
    | some (CycleExc.error _) =>
      let k := runCycles monitorRef intervalSeconds rest (cycleCount + 1)
      ⟨r.trace ++ [CycleEv.cooldownSleep 60] ++ k.trace, k.stopped,
        k.processed + 1, r.notifUsed :: k.notifsUsed⟩

/-- The startup environment: the outcome of start_background_monitor
(an error models the startup raising), the cycle window, and the
configured cycle interval. -/
structure StarterEnv where
  monitorStart : Except String Unit
  cycleEnvs : List CycleEnv
  intervalSeconds : Nat

/-- The observable outcome of the startup function: whether the
background-monitor reference is present, and the orchestrator outcome. -/
structure StarterOutcome where
  monitorRef : Bool
  orch : OrchOutcome

/-- start_security_agent_with_background_monitor, restricted to the
monitor startup and cycle loop it performs (starter.py lines 119-169):
a raising start_background_monitor is caught, a warning is logged, and
the monitor reference is set to None (modelled as false); the cycle loop
then runs with that reference. -/
def start_security_agent_with_background_monitor (env : StarterEnv) : StarterOutcome :=
  let monitorRef :=
    match env.monitorStart with
    | Except.ok _ => true
    | Except.error _ => false
  ⟨monitorRef, runCycles monitorRef env.intervalSeconds env.cycleEnvs 0⟩

/-- Does an orchestrator event record a cooldown sleep? -/
def isCooldown : CycleEv → Bool
  | CycleEv.cooldownSleep _ => true
  | _ => false

/-- Does an orchestrator event record a monitor status read? -/
def isMonitorQuery : CycleEv → Bool
  | CycleEv.monitorStatusQuery => true
  | _ => false

/-- Does a cycle environment make the flow raise KeyboardInterrupt? -/
def raisesInterrupt (cenv : CycleEnv) : Bool :=
  cenv.flowRaises = some CycleExc.keyboardInterrupt

/-- Count, among the cycle environments up to and excluding the first
interrupting one, those whose flow raises a non-interrupt exception. -/
def errorsBeforeInterrupt : List CycleEnv → Nat
  | [] => 0
  | cenv :: rest =>
    match cenv.flowRaises with
    | some CycleExc.keyboardInterrupt => 0
    | some (CycleExc.error _) => errorsBeforeInterrupt rest + 1
    | none => errorsBeforeInterrupt rest

/-! ### get_latest_notifications_by_source embedding
(src/agent/src/helper.py, lines 131-173) -/

/-- A notification record with the keys the function touches.  The
created field models the datetime.fromisoformat parse of the ISO
timestamp string (datetimes are totally ordered; an integer stands for
the parsed instant).  The message field distinguishes notifications. -/
structure Notification where
  source : String
  created : Int
  message : String
deriving Repr, DecidableEq

/-- One step of the grouping loop of lines 156-161: append the
notification to its source's group, creating the group at the end on
first sight of the source (Python dict insertion order). -/
def addToGroups (groups : List (String × List Notification)) (n : Notification) :
    List (String × List Notification) :=
  if groups.any (fun g => g.1 = n.source) then
    groups.map (fun g => if g.1 = n.source then (g.1, g.2 ++ [n]) else g)
  else groups ++ [(n.source, [n])]

/-- The source_groups dict of lines 156-161. -/
def groupBySource (ns : List Notification) : List (String × List Notification) :=
  ns.foldl addToGroups []

/-- Stable insertion into a list sorted by created, descending: keep
elements with strictly greater key in place, so that among equal keys the
earlier-inserted element stays first — the stability guarantee of
Python's sorted with reverse=True. -/
def insertDescCreated (x : Notification) : List Notification → List Notification
  | [] => [x]
  | y :: ys => if x.created < y.created then y :: insertDescCreated x ys else x :: y :: ys

/-- sorted(notifs, key=created, reverse=True) of lines 167-169. -/
def sortByCreatedDesc (ns : List Notification) : List Notification :=
  ns.foldr insertDescCreated []

/-- sorted_notifs[0] of line 171: the first element of the group sorted
by created descending (the group lists are never empty). -/
def pickLatest (g : String × List Notification) : List Notification :=
  match sortByCreatedDesc g.2 with
  | [] => []
  | latest :: _ => [latest]

/-- get_latest_notifications_by_source (helper.py lines 131-173): group
by source, sort each group by created descending, and take each group's
first element. -/
def get_latest_notifications_by_source (notifications : List Notification) :
    List Notification :=
  (groupBySource notifications).foldr (fun g acc => pickLatest g ++ acc) []

/-! ### Concrete inputs and environments used by witnesses and
counterexamples -/

/-- An attempt whose generation and execution both unwrap. -/
def okAttempt (d : ChatDelta) (code out : String) : Attempt :=
  ⟨true, "", code, d, true, "", out⟩

/-- An attempt whose generation unwraps but whose sandbox run fails. -/
def execFailAttempt (d : ChatDelta) (code err : String) : Attempt :=
  ⟨true, "", code, d, false, err, ""⟩

/-- An attempt whose generation unwrap fails. -/
def genFailAttempt (err : String) : Attempt :=
  ⟨false, err, "", 0, true, "", ""⟩

/-- Flow arguments of an ordinary security cycle with an empty
notification string. -/
def baseArgs : FlowArgs := ⟨"sess1", "agent1", "security", none, ""⟩

/-- An environment in which every stage succeeds on its first attempt. -/
def baseEnv : FlowEnv :=
  { metricStart := [("security_score", 1)],
    metricEnd := [("security_score", 1), ("total_threats_detected", 2)],
    nanoid4 := "abcd",
    nanoid8 := "abcdefgh",
    ragOutcome := Except.ok [],
    prepareDelta := 1,
    analysisAttempts := fun _ => okAttempt 2 "import os\nprint(os.name)" "analysis ok",
    strategyAttempts := fun _ => okAttempt 3 "strategy text" "",
    researchAttempts := fun _ => okAttempt 4 "import os\nprint(os.name)" "research ok",
    remediationAttempts := fun _ => okAttempt 5 "import os\nprint(os.name)" "remediation ok",
    summarize := fun _ => "summary" }

/-- The C1 environment: stages 1-3 succeed at once, every remediation
sandbox run fails. -/
def c1Env : FlowEnv :=
  { baseEnv with
    remediationAttempts := fun _ =>
      execFailAttempt 5 "import os\nprint(os.name)" "sandbox failed" }

/-- A fresh loop state with empty histories and trace, for exercising a
retry loop in isolation. -/
def c4InitSt : LoopSt :=
  { success := false, regen := false, errAcc := "", newCh := 0, code := "",
    output := none, chat := [], training := [], trainOnly := [], trace := [] }

/-- An attempt oracle that fails on the first attempt and succeeds on
the second. -/
def c4FailThenOk : Nat → Attempt := fun i =>
  if i = 0 then genFailAttempt "gen boom"
  else okAttempt 9 "import os\nprint(os.name)" "run ok"

/-- The C6 counterexample input: a valid middle part between
eleven-hyphen separator runs takes priority over the single fenced code
block the input also contains. -/
def c6Input : String :=
  "aaa\n-----------\nimport os\nprint(1234)\n-----------\n```python\nimport re\nprint(1234567)\n```"

/-- The single fenced block of c6Input. -/
def c6Block : String := "import re\nprint(1234567)"

/-- The C5 counterexample input: a fenced block whose body carries a
prose stop-marker line past its tenth line; the first pass keeps the
marker (the fence strategy does not trim prose), the second pass's
line-scan cuts it off. -/
def c5Input : String :=
  "```python\nimport os\nprint(1)\nprint(2)\nprint(3)\nprint(4)\nprint(5)\nprint(6)\nprint(7)\nprint(8)\nprint(9)\nUsage Notes: run daily\n```"

/-- A starter environment whose background monitor fails to start. -/
def c8Env : StarterEnv :=
  { monitorStart := Except.error "monitor boom",
    cycleEnvs :=
      [ { prevStrat := none, notifStr := "alert one",
          monitorStatus := Except.ok ⟨3, 2, 1, 1, "now"⟩, flowRaises := none },
        { prevStrat := some ⟨"prev", []⟩, notifStr := "",
          monitorStatus := Except.ok ⟨3, 2, 1, 1, "now"⟩, flowRaises := none } ],
    intervalSeconds := 900 }

/-- A cycle window with one successful cycle, one failing cycle and a
final interrupt, for the C9 witness. -/
def c9Envs : List CycleEnv :=
  [ { prevStrat := none, notifStr := "a",
      monitorStatus := Except.ok ⟨0, 0, 0, 0, "t"⟩, flowRaises := none },
    { prevStrat := none, notifStr := "b",
      monitorStatus := Except.ok ⟨0, 0, 0, 0, "t"⟩,
      flowRaises := some (CycleExc.error "cycle boom") },
    { prevStrat := none, notifStr := "c",
      monitorStatus := Except.ok ⟨0, 0, 0, 0, "t"⟩,
      flowRaises := some CycleExc.keyboardInterrupt } ]

/-- Concrete notifications for the C10 witness: two sources, the
Twitter source with two timestamps. -/
def c10Notifs : List Notification :=
  [ ⟨"Twitter", 100, "Tweet 1"⟩,
    ⟨"Twitter", 200, "Tweet 2"⟩,
    ⟨"Email", 50, "Email 1"⟩ ]

/-!
## Theorems

First the recomposition lemmas for the newline split/join pair, then the
claims in order.
-/

theorem splitNlL_ne_nil (l : List Char) : splitNlL l ≠ [] := by
  induction l with
  | nil => simp [splitNlL]
  | cons c cs ih =>
    simp only [splitNlL]
    split
    · simp
    · split
      · simp
      · simp

theorem joinNlL_splitNlL (l : List Char) : joinNlL (splitNlL l) = l := by
  induction l with
  | nil => rfl
  | cons c cs ih =>
    simp only [splitNlL]
    split
    · rename_i h
      subst h
      cases hs : splitNlL cs with
      | nil => exact absurd hs (splitNlL_ne_nil cs)
      | cons p ps =>
        rw [hs] at ih
        simp only [joinNlL]
        cases ps with
        | nil => simp only [joinNlL] at ih ⊢; rw [ih]; rfl
        | cons q qs => simp only [joinNlL] at ih ⊢; rw [ih]; rfl
    · cases hs : splitNlL cs with
      | nil => exact absurd hs (splitNlL_ne_nil cs)
      | cons p ps =>
        rw [hs] at ih
        cases ps with
        | nil => simp only [joinNlL] at ih ⊢; rw [ih]
        | cons q qs =>
          simp only [joinNlL] at ih ⊢
          rw [List.cons_append, ih]

theorem pyJoinNl_pyLines (s : String) : pyJoinNl (pyLines s) = s := by
  cases s with
  | mk data =>
    simp only [pyJoinNl, pyLines, List.map_map]
    have : (splitNlL data).map (String.data ∘ String.mk) = splitNlL data :=
      (List.map_congr_left (fun x _ => rfl)).trans (List.map_id _)
    rw [this, joinNlL_splitNlL]

/-- C2: the Normalizer is total.  extract_python_code is a total function
returning, on every input, either the completion of an extracted
candidate, the designated fallback script, or the stripped (unicode-fixed)
input text; and when no extraction strategy finds code it returns the
fallback script exactly when the text contains a loose explanatory
phrase, and the stripped input otherwise. -/
theorem extract_python_code_total (s : String) :
    ((∃ c, extract_python_code s = _complete_python_code c) ∨
      extract_python_code s = generate_fallback_security_code ∨
      extract_python_code s = pyStrip (unicodeFix s)) ∧
    (sepCandidate (unicodeFix s) = none → fenceCandidate (unicodeFix s) = none →
      lineCandidate (unicodeFix s) = none →
      extract_python_code s =
        if hasLoosePhrases (unicodeFix s) then generate_fallback_security_code
        else pyStrip (unicodeFix s)) := by
  constructor
  · unfold extract_python_code
    cases h1 : sepCandidate (unicodeFix s) with
    | some c => simp only [h1]; exact Or.inl ⟨c, rfl⟩
    | none =>
      cases h2 : fenceCandidate (unicodeFix s) with
      | some c => simp only [h1, h2]; exact Or.inl ⟨c, rfl⟩
      | none =>
        cases h3 : lineCandidate (unicodeFix s) with
        | some c => simp only [h1, h2, h3]; exact Or.inl ⟨c, rfl⟩
        | none =>
          simp only [h1, h2, h3]
          cases h4 : hasLoosePhrases (unicodeFix s) with
          | true => simp [h4]
          | false => simp [h4]
  · intro h1 h2 h3
    unfold extract_python_code
    simp only [h1, h2, h3]

/-- C2 witness: a concrete prose input on which no strategy finds code
and which contains a loose phrase, so the fallback script is returned. -/
theorem extract_python_code_total_witness :
    extract_python_code "no code but here is text" = generate_fallback_security_code := by
  have h := (extract_python_code_total "no code but here is text").2
    (by decide) (by decide) (by decide)
  rw [h]
  decide

/-- C6 counterexample: c6Input contains exactly one fenced code block
with Python-valid contents, yet extract_python_code does not return that
block (completed), because the higher-priority separator-split strategy
fires first on the eleven-hyphen rules and returns the middle part. -/
theorem c6_counterexample :
    findCodeBlocks (unicodeFix c6Input) = [c6Block] ∧
    _is_valid_python_code (pyStrip c6Block) = true ∧
    extract_python_code c6Input ≠ _complete_python_code (pyStrip c6Block) :=
  ⟨by decide, by decide, by decide⟩

/-- C6 (amended): for every input on which the separator-split strategy
does not fire and which contains exactly one fenced code block whose
stripped contents pass the Python-validity check, extract_python_code
returns exactly that block's trimmed contents, modulo the
import-injection completion step applied to it. -/
theorem c6_amended (s b : String)
    (h1 : sepCandidate (unicodeFix s) = none)
    (h2 : findCodeBlocks (unicodeFix s) = [b])
    (h3 : _is_valid_python_code (pyStrip b) = true) :
    extract_python_code s = _complete_python_code (pyStrip b) := by
  have hf : fenceCandidate (unicodeFix s) = some (pyStrip b) := by
    unfold fenceCandidate
    rw [h2]
    simp [List.find?, h3]
  unfold extract_python_code
  simp only [h1, hf]

/-- C6 amended witness: a concrete single-block input. -/
theorem c6_amended_witness :
    extract_python_code "```python\nimport os\nprint(os.name)\n```" =
      _complete_python_code (pyStrip "import os\nprint(os.name)") :=
  c6_amended _ _ (by decide) (by decide) (by decide)

/-- C5 counterexample: the first pass on c5Input yields valid-looking
code (the fenced block's contents, including the prose stop-marker line
past the tenth line), but the second pass trims further: normalize is not
idempotent on this extractable input. -/
theorem c5_counterexample :
    _is_valid_python_code (extract_python_code c5Input) = true ∧
    extract_python_code (extract_python_code c5Input) ≠ extract_python_code c5Input :=
  ⟨by decide, by decide⟩

/-- C5 (amended): extract_python_code is idempotent on an input whose
first pass yields valid-looking code, provided the first-pass output
survives the second pass's candidate selection intact: it contains no
unicode dash, no separator-split hit, no fenced block, its line scan
starts at line 0 and cuts nothing (no prose stop-marker from the tenth
line on), it is already stripped, and the import-injection completion
step is a no-op on it — in particular no second copy of an import or
load_dotenv() call is added. -/
theorem c5_amended (x : String)
    (hvalid : _is_valid_python_code (extract_python_code x) = true)
    (h0 : unicodeFix (extract_python_code x) = extract_python_code x)
    (h1 : sepCandidate (extract_python_code x) = none)
    (h2 : fenceCandidate (extract_python_code x) = none)
    (h3 : findStartIdx (pyLines (extract_python_code x)) = some 0)
    (h4 : findEndIdx (pyLines (extract_python_code x)) 0 =
      (pyLines (extract_python_code x)).length)
    (h5 : pyStrip (extract_python_code x) = extract_python_code x)
    (h6 : _complete_python_code (extract_python_code x) = extract_python_code x) :
    extract_python_code (extract_python_code x) = extract_python_code x := by
  generalize hy : extract_python_code x = y at h0 h1 h2 h3 h4 h5 h6 ⊢
  have hl : lineCandidate y = some y := by
    unfold lineCandidate
    simp only [h3]
    simp only [h4, Nat.sub_zero, List.drop_zero, List.take_length, pyJoinNl_pyLines, h5]
  unfold extract_python_code
  simp only [h0, h1, h2, hl, h6]

/-- C5 amended witness: a concrete fenced input whose extraction is a
fixpoint of the second pass. -/
theorem c5_amended_witness :
    extract_python_code (extract_python_code "```python\nimport os\nprint(os.name)\n```") =
      extract_python_code "```python\nimport os\nprint(os.name)\n```" :=
  c5_amended _ (by decide) (by decide) (by decide) (by decide) (by decide)
    (by decide) (by decide) (by decide)

theorem loopStep_skip (cfg : StageCfg) (a : Attempt) (st : LoopSt)
    (hs : st.success = true) : loopStep cfg a st = st := by
  simp [loopStep, hs]

theorem loopStep_fail (cfg : StageCfg) (a : Attempt) (st : LoopSt)
    (hs : st.success = false) (hf : attemptFails cfg a = true) :
    (loopStep cfg a st).success = false ∧ (loopStep cfg a st).regen = true ∧
    (loopStep cfg a st).trace.countP isRegenCall =
      st.trace.countP isRegenCall + (if st.regen then 1 else 0) ∧
    (loopStep cfg a st).trace.countP isAttemptCall =
      st.trace.countP isAttemptCall + 1 := by
  unfold attemptFails at hf
  cases hg : a.genOk with
  | false =>
    cases hr : st.regen with
    | false =>
      simp [loopStep, hs, hg, hr, List.countP_append, isRegenCall, isAttemptCall]
    | true =>
      simp [loopStep, hs, hg, hr, List.countP_append, isRegenCall, isAttemptCall]
  | true =>
    rw [hg] at hf
    simp only [Bool.not_true, Bool.false_or] at hf
    have hx : cfg.hasExec = true := by
      cases hh : cfg.hasExec <;> rw [hh] at hf <;> simp_all
    have he : a.execOk = false := by
      cases hh : a.execOk <;> rw [hh] at hf <;> simp_all
    cases hr : st.regen with
    | false =>
      cases hc : cfg.appendChat <;>
        simp [loopStep, hs, hg, hr, hx, he, hc, List.countP_append,
          isRegenCall, isAttemptCall]
    | true =>
      cases hc : cfg.appendChat <;>
        simp [loopStep, hs, hg, hr, hx, he, hc, List.countP_append,
          isRegenCall, isAttemptCall]

theorem loopStep_succeed (cfg : StageCfg) (a : Attempt) (st : LoopSt)
    (hs : st.success = false) (hf : attemptFails cfg a = false) :
    (loopStep cfg a st).success = true ∧
    (loopStep cfg a st).trace.countP isRegenCall =
      st.trace.countP isRegenCall + (if st.regen then 1 else 0) ∧
    (loopStep cfg a st).trace.countP isAttemptCall =
      st.trace.countP isAttemptCall + 1 := by
  unfold attemptFails at hf
  have hg : a.genOk = true := by
    cases hh : a.genOk <;> rw [hh] at hf <;> simp_all
  rw [hg] at hf
  simp only [Bool.not_true, Bool.false_or, Bool.and_eq_false_iff] at hf
  cases hx : cfg.hasExec with
  | false =>
    cases hr : st.regen <;> cases hc : cfg.appendChat <;>
      simp [loopStep, hs, hg, hr, hx, hc, List.countP_append,
        isRegenCall, isAttemptCall]
  | true =>
    have he : a.execOk = true := by
      rcases hf with hf | hf
      · rw [hx] at hf; simp at hf
      · cases hh : a.execOk
        · rw [hh] at hf; simp at hf
        · rfl
    cases hr : st.regen <;> cases hc : cfg.appendChat <;>
      simp [loopStep, hs, hg, hr, hx, hc, he, List.countP_append,
        isRegenCall, isAttemptCall]

/-- C4: the retry-regenerate controller of every stage loop in
assisted_flow.  When every attempt fails (generation or execution), the
regenerate function is invoked exactly 2 times (attempts 2 and 3) and the
stage ends unsuccessful after attempt 3; when the first attempt fails and
the second succeeds, the regenerate function is invoked exactly once, the
loop halts on that success, and only 2 attempts are made. -/
theorem retry_controller_c4 (cfg : StageCfg)
    (hcfg : cfg ∈ [analysisCfg, strategyCfg, researchCfg, remediationCfg])
    (o : Nat → Attempt) (st : LoopSt)
    (hs : st.success = false) (hr : st.regen = false) :
    ((∀ i, i < 3 → attemptFails cfg (o i) = true) →
      ((runLoop cfg o st).trace.countP isRegenCall =
        st.trace.countP isRegenCall + 2 ∧
       (runLoop cfg o st).success = false)) ∧
    (attemptFails cfg (o 0) = true → attemptFails cfg (o 1) = false →
      ((runLoop cfg o st).trace.countP isRegenCall =
        st.trace.countP isRegenCall + 1 ∧
       (runLoop cfg o st).success = true ∧
       (runLoop cfg o st).trace.countP isAttemptCall =
        st.trace.countP isAttemptCall + 2)) := by
  constructor
  · intro hall
    have s1 := loopStep_fail cfg (o 0) st hs (hall 0 (by omega))
    have s2 := loopStep_fail cfg (o 1) _ s1.1 (hall 1 (by omega))
    have s3 := loopStep_fail cfg (o 2) _ s2.1 (hall 2 (by omega))
    unfold runLoop
    refine ⟨?_, s3.1⟩
    rw [s3.2.2.1, s2.2.2.1, s1.2.2.1, hr, s1.2.1, s2.2.1]
    simp
  · intro h0 h1
    have s1 := loopStep_fail cfg (o 0) st hs h0
    have s2 := loopStep_succeed cfg (o 1) _ s1.1 h1
    have s3 := loopStep_skip cfg (o 2) _ s2.1
    unfold runLoop
    rw [s3]
    refine ⟨?_, s2.1, ?_⟩
    · rw [s2.2.1, s1.2.2.1, hr, s1.2.1]
      simp
    · rw [s2.2.2, s1.2.2.2]

/-- C4 witness: the analysis loop under a fail-then-succeed oracle makes
one regen call and succeeds. -/
theorem retry_controller_c4_witness :
    (runLoop analysisCfg c4FailThenOk c4InitSt).trace.countP isRegenCall = 1 ∧
    (runLoop analysisCfg c4FailThenOk c4InitSt).success = true := by
  have h := (retry_controller_c4 analysisCfg (List.mem_cons_self _ _)
    c4FailThenOk c4InitSt rfl rfl).2 (by decide) (by decide)
  exact ⟨by simpa [c4InitSt] using h.1, h.2.1⟩

theorem loopStep_hist (cfg : StageCfg) (a : Attempt) (st : LoopSt)
    (hc : cfg.appendChat = true)
    (h1 : st.training = st.chat) (h2 : st.trainOnly = []) :
    (loopStep cfg a st).training = (loopStep cfg a st).chat ∧
    (loopStep cfg a st).trainOnly = [] := by
  unfold loopStep
  cases hs : st.success
  · cases hr : st.regen <;> cases hg : a.genOk <;> cases hx : cfg.hasExec <;>
      cases he : a.execOk <;> simp [hc, h1, h2, hs, hr, hg, hx, he]
  · simp [h1, h2]

theorem loopStep_remed (a : Attempt) (st : LoopSt)
    (h : st.training = st.chat ++ st.trainOnly) :
    (loopStep remediationCfg a st).training =
      (loopStep remediationCfg a st).chat ++ (loopStep remediationCfg a st).trainOnly := by
  unfold loopStep
  cases hs : st.success
  · cases hr : st.regen <;> cases hg : a.genOk <;> cases he : a.execOk <;>
      simp [remediationCfg, h, hs, hr, hg, he]
  · simp [h]

theorem runLoop_hist (cfg : StageCfg) (o : Nat → Attempt) (st : LoopSt)
    (hc : cfg.appendChat = true)
    (h1 : st.training = st.chat) (h2 : st.trainOnly = []) :
    (runLoop cfg o st).training = (runLoop cfg o st).chat ∧
    (runLoop cfg o st).trainOnly = [] := by
  unfold runLoop
  have s1 := loopStep_hist cfg (o 0) st hc h1 h2
  have s2 := loopStep_hist cfg (o 1) _ hc s1.1 s1.2
  exact loopStep_hist cfg (o 2) _ hc s2.1 s2.2

theorem runLoop_remed (o : Nat → Attempt) (st : LoopSt)
    (h : st.training = st.chat ++ st.trainOnly) :
    (runLoop remediationCfg o st).training =
      (runLoop remediationCfg o st).chat ++ (runLoop remediationCfg o st).trainOnly := by
  unfold runLoop
  exact loopStep_remed (o 2) _ (loopStep_remed (o 1) _ (loopStep_remed (o 0) _ h))

/-- C3 (amended): in every execution of assisted_flow the training
history equals the in-session history followed by exactly the deltas the
remediation stage appended to the training history alone; the two
histories receive identical appends everywhere else and diverge only at
the remediation stage, whose delta goes to the persisted training history
but not to the in-session history the model sees. -/
theorem c3_amended (args : FlowArgs) (env : FlowEnv) :
    (assisted_flow args env).training =
      (assisted_flow args env).chat ++ (assisted_flow args env).remediationDeltas := by
  have hA : (flowStA args env).training = (flowStA args env).chat ∧
      (flowStA args env).trainOnly = [] :=
    runLoop_hist analysisCfg env.analysisAttempts (flowSt0 args env) rfl rfl rfl
  have hS : (flowStS args env).training = (flowStS args env).chat ∧
      (flowStS args env).trainOnly = [] :=
    runLoop_hist strategyCfg env.strategyAttempts _ rfl hA.1 hA.2
  have hR : (flowStR args env).training = (flowStR args env).chat ∧
      (flowStR args env).trainOnly = [] :=
    runLoop_hist researchCfg env.researchAttempts _ rfl hS.1 hS.2
  have hQ : (flowStQ args env).training =
      (flowStQ args env).chat ++ (flowStQ args env).trainOnly :=
    runLoop_remed env.remediationAttempts _ (by rw [hR.1, hR.2]; simp)
  unfold assisted_flow
  simp only []
  split
  · rw [hA.1, hA.2]; simp
  · split
    · rw [hS.1, hS.2]; simp
    · split
      · rw [hR.1, hR.2]; simp
      · split
        · exact hQ
        · exact hQ

/-- C3 counterexample: in a concrete all-successful execution, the
remediation stage's delta (5) is present in the persisted training
history and absent from the in-session history — the opposite of the
claimed direction of suppression. -/
theorem c3_counterexample :
    (assisted_flow baseArgs baseEnv).remediationDeltas = [5] ∧
    5 ∈ (assisted_flow baseArgs baseEnv).training ∧
    5 ∉ (assisted_flow baseArgs baseEnv).chat :=
  ⟨by decide, by decide, by decide⟩

/-- C1: evaluation at the failing input.  With metric name "security",
stages 1-3 succeeding at once and all three remediation sandbox runs
failing, the remediation stage is exhausted (3 sandbox runs, success
false) and the flow exits with UnboundLocalError from line 552 — so
insert_strategy_and_result is called 0 times (not once with outcome
failed) and the wallet snapshot is inserted once (not twice). -/
theorem c1_bug :
    (assisted_flow baseArgs c1Env).trace.countP isRemediationRun = 3 ∧
    (flowStQ baseArgs c1Env).success = false ∧
    (assisted_flow baseArgs c1Env).exit = FlowExit.unboundLocalError ∧
    (assisted_flow baseArgs c1Env).trace.countP isStrategyInsert = 0 ∧
    (assisted_flow baseArgs c1Env).trace.countP isSnapshotInsert = 1 :=
  ⟨by decide, by decide, by decide, by decide, by decide⟩

theorem jsonDumps_ne_empty (m : MetricState) : jsonDumps m ≠ "" := by
  intro h
  have hl := congrArg String.length h
  rw [jsonDumps, String.length_append, String.length_append] at hl
  have h1 : ("\x7b" : String).length = 1 := rfl
  have h2 : ("\x7d" : String).length = 1 := rfl
  have h0 : ("" : String).length = 0 := rfl
  rw [h1, h2, h0] at hl
  omega

theorem loopStep_count_nonloop (cfg : StageCfg) (a : Attempt) (st : LoopSt)
    (P : Ev → Bool)
    (h1 : ∀ s, P (Ev.genCall s) = false)
    (h2 : ∀ s e, P (Ev.regenCall s e) = false)
    (h3 : ∀ c l, P (Ev.runCodeInCon c l) = false) :
    (loopStep cfg a st).trace.countP P = st.trace.countP P := by
  unfold loopStep
  cases hs : st.success
  · cases hr : st.regen <;> cases hg : a.genOk <;> cases hx : cfg.hasExec <;>
      cases hc : cfg.appendChat <;> cases he : a.execOk <;>
      simp [hs, hr, hg, hx, hc, he, List.countP_append, List.countP_cons, h1, h2, h3]
  · rfl

theorem loopStep_all_nonloop (cfg : StageCfg) (a : Attempt) (st : LoopSt)
    (P : Ev → Bool)
    (h1 : ∀ s, P (Ev.genCall s) = true)
    (h2 : ∀ s e, P (Ev.regenCall s e) = true)
    (h3 : ∀ c l, P (Ev.runCodeInCon c l) = true) :
    (loopStep cfg a st).trace.all P = st.trace.all P := by
  unfold loopStep
  cases hs : st.success
  · cases hr : st.regen <;> cases hg : a.genOk <;> cases hx : cfg.hasExec <;>
      cases hc : cfg.appendChat <;> cases he : a.execOk <;>
      simp [hs, hr, hg, hx, hc, he, List.all_append, h1, h2, h3]
  · rfl

theorem runLoop_count_nonloop (cfg : StageCfg) (o : Nat → Attempt) (st : LoopSt)
    (P : Ev → Bool)
    (h1 : ∀ s, P (Ev.genCall s) = false)
    (h2 : ∀ s e, P (Ev.regenCall s e) = false)
    (h3 : ∀ c l, P (Ev.runCodeInCon c l) = false) :
    (runLoop cfg o st).trace.countP P = st.trace.countP P := by
  unfold runLoop
  rw [loopStep_count_nonloop _ _ _ _ h1 h2 h3, loopStep_count_nonloop _ _ _ _ h1 h2 h3,
    loopStep_count_nonloop _ _ _ _ h1 h2 h3]

theorem runLoop_all_nonloop (cfg : StageCfg) (o : Nat → Attempt) (st : LoopSt)
    (P : Ev → Bool)
    (h1 : ∀ s, P (Ev.genCall s) = true)
    (h2 : ∀ s e, P (Ev.regenCall s e) = true)
    (h3 : ∀ c l, P (Ev.runCodeInCon c l) = true) :
    (runLoop cfg o st).trace.all P = st.trace.all P := by
  unfold runLoop
  rw [loopStep_all_nonloop _ _ _ _ h1 h2 h3, loopStep_all_nonloop _ _ _ _ h1 h2 h3,
    loopStep_all_nonloop _ _ _ _ h1 h2 h3]

theorem runLoop_firstOk (cfg : StageCfg) (o : Nat → Attempt) (st : LoopSt)
    (hs : st.success = false) (hf : attemptFails cfg (o 0) = false) :
    runLoop cfg o st = loopStep cfg (o 0) st := by
  unfold runLoop
  have s1 := (loopStep_succeed cfg (o 0) st hs hf).1
  rw [loopStep_skip cfg (o 1) _ s1, loopStep_skip cfg (o 2) _ s1]

theorem loopStep_ok_output (cfg : StageCfg) (a : Attempt) (st : LoopSt)
    (hs : st.success = false) (hf : attemptFails cfg a = false) :
    ∃ v, (loopStep cfg a st).output = some v := by
  unfold attemptFails at hf
  have hg : a.genOk = true := by
    cases hh : a.genOk <;> rw [hh] at hf <;> simp_all
  rw [hg] at hf
  simp only [Bool.not_true, Bool.false_or, Bool.and_eq_false_iff] at hf
  cases hx : cfg.hasExec with
  | false =>
    cases hr : st.regen <;> cases hc : cfg.appendChat <;>
      exact ⟨a.genText, by simp [loopStep, hs, hg, hr, hx, hc]⟩
  | true =>
    have he : a.execOk = true := by
      rcases hf with hf | hf
      · rw [hx] at hf; simp at hf
      · cases hh : a.execOk
        · rw [hh] at hf; simp at hf
        · rfl
    cases hr : st.regen <;> cases hc : cfg.appendChat <;>
      exact ⟨a.execOut, by simp [loopStep, hs, hg, hr, hx, hc, he]⟩

/-- C7: with an empty notification string at cycle start, the RAG
relevant-strategy query is never invoked and the fixed
no-previous-strategies placeholder triple is used; and when every stage
succeeds on its first attempt the cycle completes and persists exactly
one StrategyRecord, every strategy insert in the trace carrying
non-empty start and end metric-state parameters. -/
theorem c7_empty_notif (args : FlowArgs) (env : FlowEnv)
    (hnotif : args.notifStr = "")
    (hA : attemptFails analysisCfg (env.analysisAttempts 0) = false)
    (hS : attemptFails strategyCfg (env.strategyAttempts 0) = false)
    (hR : attemptFails researchCfg (env.researchAttempts 0) = false)
    (hQ : attemptFails remediationCfg (env.remediationAttempts 0) = false) :
    (assisted_flow args env).trace.countP isRagQuery = 0 ∧
    (assisted_flow args env).ragResult =
      ⟨"No previous security strategies found...",
       "No previous security state available...",
       "No previous security results available..."⟩ ∧
    (assisted_flow args env).exit = FlowExit.completed ∧
    (assisted_flow args env).trace.countP isStrategyInsert = 1 ∧
    (assisted_flow args env).trace.all strategyInsertHasStates = true := by
  have eA : flowStA args env =
      loopStep analysisCfg (env.analysisAttempts 0) (flowSt0 args env) :=
    runLoop_firstOk _ _ _ rfl hA
  have sA : (flowStA args env).success = true := by
    rw [eA]; exact (loopStep_succeed _ _ _ rfl hA).1
  have eS : flowStS args env = loopStep strategyCfg (env.strategyAttempts 0)
      { flowStA args env with success := false, regen := false, errAcc := "", output := none } :=
    runLoop_firstOk _ _ _ rfl hS
  have sS : (flowStS args env).success = true := by
    rw [eS]; exact (loopStep_succeed _ _ _ rfl hS).1
  have eR : flowStR args env = loopStep researchCfg (env.researchAttempts 0)
      { flowStS args env with success := false, regen := false, errAcc := "", output := none } :=
    runLoop_firstOk _ _ _ rfl hR
  have sR : (flowStR args env).success = true := by
    rw [eR]; exact (loopStep_succeed _ _ _ rfl hR).1
  have eQ : flowStQ args env = loopStep remediationCfg (env.remediationAttempts 0)
      { flowStR args env with success := false, regen := false, errAcc := "", output := none } :=
    runLoop_firstOk _ _ _ rfl hQ
  obtain ⟨qv, hqv⟩ : ∃ v, (flowStQ args env).output = some v := by
    rw [eQ]; exact loopStep_ok_output _ _ _ rfl hQ
  have cql : ∀ (P : Ev → Bool), (∀ s, P (Ev.genCall s) = false) →
      (∀ s e, P (Ev.regenCall s e) = false) → (∀ c l, P (Ev.runCodeInCon c l) = false) →
      (flowStQ args env).trace.countP P = (flowSt0 args env).trace.countP P := by
    intro P p1 p2 p3
    calc (flowStQ args env).trace.countP P
        = (flowStR args env).trace.countP P := runLoop_count_nonloop _ _ _ _ p1 p2 p3
      _ = (flowStS args env).trace.countP P := runLoop_count_nonloop _ _ _ _ p1 p2 p3
      _ = (flowStA args env).trace.countP P := runLoop_count_nonloop _ _ _ _ p1 p2 p3
      _ = (flowSt0 args env).trace.countP P := runLoop_count_nonloop _ _ _ _ p1 p2 p3
  have cal : ∀ (P : Ev → Bool), (∀ s, P (Ev.genCall s) = true) →
      (∀ s e, P (Ev.regenCall s e) = true) → (∀ c l, P (Ev.runCodeInCon c l) = true) →
      (flowStQ args env).trace.all P = (flowSt0 args env).trace.all P := by
    intro P p1 p2 p3
    calc (flowStQ args env).trace.all P
        = (flowStR args env).trace.all P := runLoop_all_nonloop _ _ _ _ p1 p2 p3
      _ = (flowStS args env).trace.all P := runLoop_all_nonloop _ _ _ _ p1 p2 p3
      _ = (flowStA args env).trace.all P := runLoop_all_nonloop _ _ _ _ p1 p2 p3
      _ = (flowSt0 args env).trace.all P := runLoop_all_nonloop _ _ _ _ p1 p2 p3
  have st0trace : (flowSt0 args env).trace = flowTrace0 args env := by
    simp [flowSt0, flowRagCall, hnotif]
  have cRag : (flowStQ args env).trace.countP isRagQuery = 0 := by
    rw [cql isRagQuery (fun _ => rfl) (fun _ _ => rfl) (fun _ _ => rfl), st0trace]
    unfold flowTrace0
    split <;> simp [isRagQuery]
  have cStrat : (flowStQ args env).trace.countP isStrategyInsert = 0 := by
    rw [cql isStrategyInsert (fun _ => rfl) (fun _ _ => rfl) (fun _ _ => rfl), st0trace]
    unfold flowTrace0
    split <;> simp [isStrategyInsert]
  have aStates : (flowStQ args env).trace.all strategyInsertHasStates = true := by
    rw [cal strategyInsertHasStates (fun _ => rfl) (fun _ _ => rfl) (fun _ _ => rfl), st0trace]
    unfold flowTrace0
    split <;> simp [strategyInsertHasStates]
  unfold assisted_flow
  simp only [sA, sS, sR, hqv, Bool.not_true, Bool.false_eq_true, if_false]
  refine ⟨?_, ?_, by trivial, ?_, ?_⟩
  · simp [List.countP_append, List.countP_cons, isRagQuery, cRag]
  · simp [flowRagResult, flowRagCall, hnotif]
  · simp [List.countP_append, List.countP_cons, isRagQuery, isStrategyInsert, cStrat]
  · simp only [List.all_append, aStates, Bool.true_and]
    simp [strategyInsertHasStates, decide_eq_true (jsonDumps_ne_empty env.metricStart),
      decide_eq_true (jsonDumps_ne_empty env.metricEnd)]

/-- C7 witness: the base environment has an empty notification string
and first-attempt successes everywhere. -/
theorem c7_empty_notif_witness :
    (assisted_flow baseArgs baseEnv).trace.countP isRagQuery = 0 ∧
    (assisted_flow baseArgs baseEnv).exit = FlowExit.completed := by
  have h := c7_empty_notif baseArgs baseEnv rfl (by decide) (by decide)
    (by decide) (by decide)
  exact ⟨h.1, h.2.2.1⟩



theorem cycleBody_raised (m : Bool) (cenv : CycleEnv) (k i : Nat) :
    (cycleBody m cenv k i).raised = cenv.flowRaises := by
  unfold cycleBody
  repeat' split
  all_goals simp_all

theorem cycleBody_noCooldown (m : Bool) (cenv : CycleEnv) (k i : Nat) :
    (cycleBody m cenv k i).trace.countP isCooldown = 0 := by
  unfold cycleBody
  repeat' split
  all_goals simp [List.countP_append, List.countP_cons, isCooldown]

theorem cycleBody_false_noMonitor (cenv : CycleEnv) (k i : Nat) :
    (cycleBody false cenv k i).trace.countP isMonitorQuery = 0 ∧
    (cycleBody false cenv k i).notifUsed = cenv.notifStr := by
  unfold cycleBody
  repeat' split
  all_goals simp_all [List.countP_append, List.countP_cons, isMonitorQuery]

theorem runCycles_false_raw (i : Nat) (cenvs : List CycleEnv) (n : Nat) :
    (runCycles false i cenvs n).trace.countP isMonitorQuery = 0 ∧
    (runCycles false i cenvs n).notifsUsed =
      (cenvs.take (runCycles false i cenvs n).processed).map (fun c => c.notifStr) := by
  induction cenvs generalizing n with
  | nil => simp [runCycles]
  | cons cenv rest ih =>
    unfold runCycles
    cases hf : (cycleBody false cenv (n + 1) i).raised with
    | none =>
      have hb := cycleBody_false_noMonitor cenv (n + 1) i
      have := ih (n + 1)
      simp [hf, hb.1, hb.2, this.1, this.2, List.countP_append, List.take_succ_cons]
    | some exc =>
      cases exc with
      | keyboardInterrupt =>
        have hb := cycleBody_false_noMonitor cenv (n + 1) i
        simp [hf, hb.1, hb.2, List.countP_append, List.countP_cons, isMonitorQuery]
      | error msg =>
        have hb := cycleBody_false_noMonitor cenv (n + 1) i
        have := ih (n + 1)
        simp [hf, hb.1, hb.2, this.1, this.2, List.countP_append, List.countP_cons,
          isMonitorQuery, List.take_succ_cons]

/-- C8: when the background monitor raises during startup, the
orchestrator proceeds with the monitor reference absent (no exception
propagates — start_security_agent_with_background_monitor still returns
an outcome), no monitor status read ever happens in the cycle loop, and
every cycle's flow receives exactly the raw fetched notification text,
never an enhanced one. -/
theorem c8_monitor_fail (env : StarterEnv) (e : String)
    (h : env.monitorStart = Except.error e) :
    (start_security_agent_with_background_monitor env).monitorRef = false ∧
    (start_security_agent_with_background_monitor env).orch.trace.countP isMonitorQuery = 0 ∧
    (start_security_agent_with_background_monitor env).orch.notifsUsed =
      (env.cycleEnvs.take
        (start_security_agent_with_background_monitor env).orch.processed).map
        (fun c => c.notifStr) := by
  unfold start_security_agent_with_background_monitor
  rw [h]
  simp only []
  exact ⟨by trivial, (runCycles_false_raw _ _ _).1, (runCycles_false_raw _ _ _).2⟩

/-- C8 witness: a concrete failing-startup environment with two cycles;
the flow runs receive the raw notification texts. -/
theorem c8_monitor_fail_witness :
    (start_security_agent_with_background_monitor c8Env).monitorRef = false ∧
    (start_security_agent_with_background_monitor c8Env).orch.notifsUsed =
      ["alert one", ""] := by
  have h := c8_monitor_fail c8Env "monitor boom" rfl
  refine ⟨h.1, ?_⟩
  rw [h.2.2]
  decide

theorem runCycles_robust (m : Bool) (i : Nat) (cenvs : List CycleEnv) :
    ∀ n : Nat,
    ((runCycles m i cenvs n).stopped = true ↔
      ∃ c ∈ cenvs, c.flowRaises = some CycleExc.keyboardInterrupt) ∧
    ((runCycles m i cenvs n).stopped = false →
      (runCycles m i cenvs n).processed = cenvs.length) ∧
    (runCycles m i cenvs n).trace.countP isCooldown = errorsBeforeInterrupt cenvs := by
  induction cenvs with
  | nil => intro n; simp [runCycles, errorsBeforeInterrupt]
  | cons cenv rest ih =>
    intro n
    unfold runCycles
    simp only []
    rw [cycleBody_raised]
    cases hf : cenv.flowRaises with
    | none =>
      have := ih (n + 1)
      refine ⟨?_, ?_, ?_⟩
      · simp only []
        rw [this.1]
        constructor
        · intro ⟨c, hc, hraise⟩; exact ⟨c, List.mem_cons_of_mem _ hc, hraise⟩
        · intro ⟨c, hc, hraise⟩
          cases List.mem_cons.mp hc with
          | inl hceq => rw [hceq] at hraise; rw [hraise] at hf; cases hf
          | inr hmem => exact ⟨c, hmem, hraise⟩
      · intro hstop
        simp only [] at hstop ⊢
        rw [this.2.1 hstop, List.length_cons]
      · simp only [List.countP_append]
        rw [cycleBody_noCooldown, this.2.2]
        simp [errorsBeforeInterrupt, hf]
    | some exc =>
      cases exc with
      | keyboardInterrupt =>
        refine ⟨?_, ?_, ?_⟩
        · simp only []
          constructor
          · intro _; exact ⟨cenv, List.mem_cons_self _ _, hf⟩
          · intro _; trivial
        · intro hstop; cases hstop
        · simp only [List.countP_append]
          rw [cycleBody_noCooldown]
          simp [errorsBeforeInterrupt, hf, List.countP_cons, isCooldown]
      | error msg =>
        have := ih (n + 1)
        refine ⟨?_, ?_, ?_⟩
        · simp only []
          rw [this.1]
          constructor
          · intro ⟨c, hc, hraise⟩; exact ⟨c, List.mem_cons_of_mem _ hc, hraise⟩
          · intro ⟨c, hc, hraise⟩
            cases List.mem_cons.mp hc with
            | inl hceq => rw [hceq] at hraise; rw [hraise] at hf; injection hf with hh; cases hh
            | inr hmem => exact ⟨c, hmem, hraise⟩
        · intro hstop
          simp only [] at hstop ⊢
          rw [this.2.1 hstop, List.length_cons]
        · simp only [List.countP_append]
          rw [cycleBody_noCooldown, this.2.2]
          simp [errorsBeforeInterrupt, hf, List.countP_cons, List.countP_append, isCooldown]
          omega

/-- C9: the orchestrator loop never terminates because of a failure
within a cycle: it stops exactly when some cycle raises the keyboard
interrupt; when no interrupt occurs it processes the whole observation
window; and every cycle that raises a non-interrupt exception is
followed by exactly one 60-second cooldown sleep, after which the loop
continues. -/
theorem c9_loop_never_dies (m : Bool) (i : Nat) (cenvs : List CycleEnv) :
    ((runCycles m i cenvs 0).stopped = true ↔
      ∃ c ∈ cenvs, c.flowRaises = some CycleExc.keyboardInterrupt) ∧
    ((runCycles m i cenvs 0).stopped = false →
      (runCycles m i cenvs 0).processed = cenvs.length) ∧
    (runCycles m i cenvs 0).trace.countP isCooldown = errorsBeforeInterrupt cenvs :=
  runCycles_robust m i cenvs 0

/-- C9 witness: a window with one good cycle, one failing cycle and an
interrupt: the loop stops and slept exactly one cooldown. -/
theorem c9_loop_never_dies_witness :
    (runCycles true 900 c9Envs 0).stopped = true ∧
    (runCycles true 900 c9Envs 0).trace.countP isCooldown = 1 := by
  have h := c9_loop_never_dies true 900 c9Envs
  refine ⟨h.1.mpr ?_, ?_⟩
  · exact ⟨c9Envs[2], by decide, by decide⟩
  · rw [h.2.2]; decide

theorem mem_insertDescCreated {a x : Notification} {l : List Notification} :
    a ∈ insertDescCreated x l ↔ a = x ∨ a ∈ l := by
  induction l with
  | nil => simp [insertDescCreated]
  | cons y ys ih =>
    unfold insertDescCreated
    split
    · rw [List.mem_cons, ih, List.mem_cons]
      tauto
    · simp only [List.mem_cons]

theorem mem_sortByCreatedDesc {a : Notification} {l : List Notification} :
    a ∈ sortByCreatedDesc l ↔ a ∈ l := by
  induction l with
  | nil => simp [sortByCreatedDesc]
  | cons x xs ih =>
    show a ∈ insertDescCreated x (sortByCreatedDesc xs) ↔ _
    rw [mem_insertDescCreated, ih, List.mem_cons]

theorem insertDescCreated_ne_nil (x : Notification) (l : List Notification) :
    insertDescCreated x l ≠ [] := by
  cases l with
  | nil => simp [insertDescCreated]
  | cons y ys =>
    unfold insertDescCreated
    split <;> simp

theorem pairwise_insertDescCreated (x : Notification) (l : List Notification)
    (h : l.Pairwise (fun a b => b.created ≤ a.created)) :
    (insertDescCreated x l).Pairwise (fun a b => b.created ≤ a.created) := by
  induction l with
  | nil => simp [insertDescCreated]
  | cons y ys ih =>
    rw [List.pairwise_cons] at h
    unfold insertDescCreated
    split
    · rename_i hlt
      rw [List.pairwise_cons]
      refine ⟨?_, ih h.2⟩
      intro z hz
      rw [mem_insertDescCreated] at hz
      cases hz with
      | inl he => rw [he]; omega
      | inr hm => exact h.1 z hm
    · rename_i hge
      rw [List.pairwise_cons]
      refine ⟨?_, List.pairwise_cons.mpr h⟩
      intro z hz
      cases List.mem_cons.mp hz with
      | inl he => rw [he]; omega
      | inr hm => have := h.1 z hm; omega

theorem pairwise_sortByCreatedDesc (l : List Notification) :
    (sortByCreatedDesc l).Pairwise (fun a b => b.created ≤ a.created) := by
  induction l with
  | nil => simp [sortByCreatedDesc]
  | cons x xs ih => exact pairwise_insertDescCreated x _ ih

theorem sortDesc_head_max (l : List Notification) (r : Notification)
    (t : List Notification) (h : sortByCreatedDesc l = r :: t) :
    ∀ n ∈ l, n.created ≤ r.created := by
  intro n hn
  have hp := pairwise_sortByCreatedDesc l
  rw [h, List.pairwise_cons] at hp
  have hmem : n ∈ sortByCreatedDesc l := mem_sortByCreatedDesc.mpr hn
  rw [h] at hmem
  cases List.mem_cons.mp hmem with
  | inl he => rw [he]
  | inr hm => exact hp.1 n hm

theorem sortDesc_head_mem (l : List Notification) (r : Notification)
    (t : List Notification) (h : sortByCreatedDesc l = r :: t) : r ∈ l := by
  have : r ∈ sortByCreatedDesc l := by rw [h]; exact List.mem_cons_self _ _
  exact mem_sortByCreatedDesc.mp this

theorem sortDesc_ne_nil (l : List Notification) (h : l ≠ []) :
    sortByCreatedDesc l ≠ [] := by
  cases l with
  | nil => exact absurd rfl h
  | cons x xs => exact insertDescCreated_ne_nil x _



theorem addToGroups_inv (gs : List (String × List Notification))
    (seen : List Notification) (n : Notification)
    (h1 : ∀ g ∈ gs, ∀ x ∈ g.2, x.source = g.1)
    (h2 : ∀ g ∈ gs, ∀ x ∈ g.2, x ∈ seen)
    (h3 : ∀ g ∈ gs, g.2 ≠ [])
    (h4 : (gs.map (fun g => g.1)).Nodup)
    (h5 : ∀ x ∈ seen, ∀ g ∈ gs, g.1 = x.source → x ∈ g.2)
    (h6 : ∀ x ∈ seen, ∃ g ∈ gs, g.1 = x.source) :
    (∀ g ∈ addToGroups gs n, ∀ x ∈ g.2, x.source = g.1) ∧
    (∀ g ∈ addToGroups gs n, ∀ x ∈ g.2, x ∈ seen ++ [n]) ∧
    (∀ g ∈ addToGroups gs n, g.2 ≠ []) ∧
    ((addToGroups gs n).map (fun g => g.1)).Nodup ∧
    (∀ x ∈ seen ++ [n], ∀ g ∈ addToGroups gs n, g.1 = x.source → x ∈ g.2) ∧
    (∀ x ∈ seen ++ [n], ∃ g ∈ addToGroups gs n, g.1 = x.source) := by
  unfold addToGroups
  split
  · rename_i hcont
    rw [List.any_eq_true] at hcont
    obtain ⟨g0, hg0mem, hg0key⟩ := hcont
    rw [decide_eq_true_eq] at hg0key
    refine ⟨?_, ?_, ?_, ?_, ?_, ?_⟩
    · intro g hg x hx
      obtain ⟨g', hg'mem, hg'eq⟩ := List.mem_map.mp hg
      by_cases hk : g'.1 = n.source
      · rw [if_pos hk] at hg'eq
        rw [← hg'eq] at hx ⊢
        simp only [List.mem_append, List.mem_singleton] at hx
        cases hx with
        | inl hold => exact h1 g' hg'mem x hold
        | inr hnew => rw [hnew]; exact hk.symm
      · rw [if_neg hk] at hg'eq
        rw [← hg'eq] at hx ⊢
        exact h1 g' hg'mem x hx
    · intro g hg x hx
      obtain ⟨g', hg'mem, hg'eq⟩ := List.mem_map.mp hg
      by_cases hk : g'.1 = n.source
      · rw [if_pos hk] at hg'eq
        rw [← hg'eq] at hx
        simp only [List.mem_append, List.mem_singleton] at hx
        cases hx with
        | inl hold => exact List.mem_append_left _ (h2 g' hg'mem x hold)
        | inr hnew => rw [hnew]; exact List.mem_append_right _ (List.mem_singleton_self n)
      · rw [if_neg hk] at hg'eq
        rw [← hg'eq] at hx
        exact List.mem_append_left _ (h2 g' hg'mem x hx)
    · intro g hg
      obtain ⟨g', hg'mem, hg'eq⟩ := List.mem_map.mp hg
      by_cases hk : g'.1 = n.source
      · rw [if_pos hk] at hg'eq
        rw [← hg'eq]
        simp
      · rw [if_neg hk] at hg'eq
        rw [← hg'eq]
        exact h3 g' hg'mem
    · have hkeys : (List.map (fun g => g.1)
          (gs.map (fun g => if g.1 = n.source then (g.1, g.2 ++ [n]) else g))) =
          gs.map (fun g => g.1) := by
        rw [List.map_map]
        refine List.map_congr_left ?_
        intro g _
        by_cases hk : g.1 = n.source
        · simp [hk]
        · simp [hk]
      rw [hkeys]
      exact h4
    · intro x hx g hg hkey
      obtain ⟨g', hg'mem, hg'eq⟩ := List.mem_map.mp hg
      simp only [List.mem_append, List.mem_singleton] at hx
      cases hx with
      | inl hseen =>
        by_cases hk : g'.1 = n.source
        · rw [if_pos hk] at hg'eq
          have hx2 : x ∈ g'.2 := by
            apply h5 x hseen g' hg'mem
            rw [← hg'eq] at hkey
            exact hkey
          rw [← hg'eq]
          exact List.mem_append_left _ hx2
        · rw [if_neg hk] at hg'eq
          rw [← hg'eq] at hkey ⊢
          exact h5 x hseen g' hg'mem hkey
      | inr hxn =>
        by_cases hk : g'.1 = n.source
        · rw [if_pos hk] at hg'eq
          rw [← hg'eq, hxn]
          exact List.mem_append_right _ (List.mem_singleton_self n)
        · rw [if_neg hk] at hg'eq
          rw [← hg'eq] at hkey
          rw [hxn] at hkey
          exact absurd hkey hk
    · intro x hx
      simp only [List.mem_append, List.mem_singleton] at hx
      cases hx with
      | inl hseen =>
        obtain ⟨g, hgmem, hgkey⟩ := h6 x hseen
        by_cases hk : g.1 = n.source
        · refine ⟨(g.1, g.2 ++ [n]), ?_, hgkey⟩
          rw [List.mem_map]
          exact ⟨g, hgmem, by rw [if_pos hk]⟩
        · refine ⟨g, ?_, hgkey⟩
          rw [List.mem_map]
          exact ⟨g, hgmem, by rw [if_neg hk]⟩
      | inr hxn =>
        refine ⟨(g0.1, g0.2 ++ [n]), ?_, by rw [hxn]; exact hg0key⟩
        rw [List.mem_map]
        exact ⟨g0, hg0mem, by rw [if_pos hg0key]⟩
  · rename_i hnot
    rw [List.any_eq_true] at hnot
    push_neg at hnot
    have hnokey : ∀ g ∈ gs, g.1 ≠ n.source := by
      intro g hg
      have := hnot g hg
      simpa using this
    refine ⟨?_, ?_, ?_, ?_, ?_, ?_⟩
    · intro g hg x hx
      rw [List.mem_append, List.mem_singleton] at hg
      cases hg with
      | inl hold => exact h1 g hold x hx
      | inr hnew =>
        rw [hnew] at hx ⊢
        rw [List.mem_singleton] at hx
        rw [hx]
    · intro g hg x hx
      rw [List.mem_append, List.mem_singleton] at hg
      cases hg with
      | inl hold => exact List.mem_append_left _ (h2 g hold x hx)
      | inr hnew =>
        rw [hnew] at hx
        rw [List.mem_singleton] at hx
        rw [hx]
        exact List.mem_append_right _ (List.mem_singleton_self n)
    · intro g hg
      rw [List.mem_append, List.mem_singleton] at hg
      cases hg with
      | inl hold => exact h3 g hold
      | inr hnew => rw [hnew]; simp
    · rw [List.map_append]
      rw [List.nodup_append]
      refine ⟨h4, List.nodup_singleton _, ?_⟩
      intro k hk hk2
      simp only [List.map_cons, List.map_nil, List.mem_singleton] at hk2
      obtain ⟨g, hgmem, hgkey⟩ := List.mem_map.mp hk
      rw [hk2] at hgkey
      exact hnokey g hgmem hgkey
    · intro x hx g hg hkey
      rw [List.mem_append, List.mem_singleton] at hx hg
      cases hx with
      | inl hseen =>
        cases hg with
        | inl hold => exact h5 x hseen g hold hkey
        | inr hnew =>
          rw [hnew] at hkey
          obtain ⟨g', hg'mem, hg'key⟩ := h6 x hseen
          rw [← hkey] at hg'key
          exact absurd hg'key (hnokey g' hg'mem)
      | inr hxn =>
        cases hg with
        | inl hold =>
          rw [hxn] at hkey
          exact absurd hkey (hnokey g hold)
        | inr hnew =>
          rw [hnew, hxn]
          exact List.mem_singleton_self n
    · intro x hx
      rw [List.mem_append, List.mem_singleton] at hx
      cases hx with
      | inl hseen =>
        obtain ⟨g, hgmem, hgkey⟩ := h6 x hseen
        exact ⟨g, List.mem_append_left _ hgmem, hgkey⟩
      | inr hxn =>
        exact ⟨(n.source, [n]), List.mem_append_right _ (List.mem_singleton_self _),
          by rw [hxn]⟩



theorem foldl_addToGroups_inv (ns : List Notification) :
    ∀ (gs : List (String × List Notification)) (seen : List Notification),
    (∀ g ∈ gs, ∀ x ∈ g.2, x.source = g.1) →
    (∀ g ∈ gs, ∀ x ∈ g.2, x ∈ seen) →
    (∀ g ∈ gs, g.2 ≠ []) →
    ((gs.map (fun g => g.1)).Nodup) →
    (∀ x ∈ seen, ∀ g ∈ gs, g.1 = x.source → x ∈ g.2) →
    (∀ x ∈ seen, ∃ g ∈ gs, g.1 = x.source) →
    (∀ g ∈ ns.foldl addToGroups gs, ∀ x ∈ g.2, x.source = g.1) ∧
    (∀ g ∈ ns.foldl addToGroups gs, ∀ x ∈ g.2, x ∈ seen ++ ns) ∧
    (∀ g ∈ ns.foldl addToGroups gs, g.2 ≠ []) ∧
    ((ns.foldl addToGroups gs).map (fun g => g.1)).Nodup ∧
    (∀ x ∈ seen ++ ns, ∀ g ∈ ns.foldl addToGroups gs, g.1 = x.source → x ∈ g.2) ∧
    (∀ x ∈ seen ++ ns, ∃ g ∈ ns.foldl addToGroups gs, g.1 = x.source) := by
  induction ns with
  | nil =>
    intro gs seen h1 h2 h3 h4 h5 h6
    simp only [List.foldl_nil, List.append_nil]
    exact ⟨h1, h2, h3, h4, h5, h6⟩
  | cons n rest ih =>
    intro gs seen h1 h2 h3 h4 h5 h6
    have step := addToGroups_inv gs seen n h1 h2 h3 h4 h5 h6
    have key := ih (addToGroups gs n) (seen ++ [n])
      step.1 step.2.1 step.2.2.1 step.2.2.2.1 step.2.2.2.2.1 step.2.2.2.2.2
    rw [List.append_assoc] at key
    exact key

theorem groupBySource_props (ns : List Notification) :
    (∀ g ∈ groupBySource ns, ∀ x ∈ g.2, x.source = g.1) ∧
    (∀ g ∈ groupBySource ns, ∀ x ∈ g.2, x ∈ ns) ∧
    (∀ g ∈ groupBySource ns, g.2 ≠ []) ∧
    ((groupBySource ns).map (fun g => g.1)).Nodup ∧
    (∀ x ∈ ns, ∀ g ∈ groupBySource ns, g.1 = x.source → x ∈ g.2) ∧
    (∀ x ∈ ns, ∃ g ∈ groupBySource ns, g.1 = x.source) := by
  have h := foldl_addToGroups_inv ns [] []
    (by intro g hg; cases hg) (by intro g hg; cases hg) (by intro g hg; cases hg)
    (by simp) (by intro x hx; cases hx) (by intro x hx; cases hx)
  simpa [groupBySource] using h

theorem result_mem (r : Notification) (gs : List (String × List Notification)) :
    r ∈ gs.foldr (fun g acc => pickLatest g ++ acc) [] ↔
      ∃ g ∈ gs, ∃ t, sortByCreatedDesc g.2 = r :: t := by
  induction gs with
  | nil => simp
  | cons g rest ih =>
    simp only [List.foldr_cons, List.mem_append, ih]
    constructor
    · intro h
      cases h with
      | inl hp =>
        unfold pickLatest at hp
        split at hp
        · cases hp
        · rename_i latest t hsort
          rw [List.mem_singleton] at hp
          exact ⟨g, List.mem_cons_self _ _, t, by rw [hsort, hp]⟩
      | inr hrest =>
        obtain ⟨g', hg', t, ht⟩ := hrest
        exact ⟨g', List.mem_cons_of_mem _ hg', t, ht⟩
    · intro ⟨g', hg', t, ht⟩
      cases List.mem_cons.mp hg' with
      | inl heq =>
        left
        unfold pickLatest
        rw [← heq, ht]
        exact List.mem_singleton_self r
      | inr hmem => exact Or.inr ⟨g', hmem, t, ht⟩

theorem result_sources (gs : List (String × List Notification))
    (h1 : ∀ g ∈ gs, ∀ x ∈ g.2, x.source = g.1)
    (h3 : ∀ g ∈ gs, g.2 ≠ []) :
    (gs.foldr (fun g acc => pickLatest g ++ acc) []).map (fun r => r.source) =
      gs.map (fun g => g.1) := by
  induction gs with
  | nil => simp
  | cons g rest ih =>
    have hne : sortByCreatedDesc g.2 ≠ [] :=
      sortDesc_ne_nil _ (h3 g (List.mem_cons_self _ _))
    have hpick : ∃ r t, sortByCreatedDesc g.2 = r :: t := by
      cases hs : sortByCreatedDesc g.2 with
      | nil => exact absurd hs hne
      | cons r t => exact ⟨r, t, rfl⟩
    obtain ⟨r, t, hrt⟩ := hpick
    have hrsource : r.source = g.1 :=
      h1 g (List.mem_cons_self _ _) r (sortDesc_head_mem _ _ _ hrt)
    have hrest := ih (fun g' hg' => h1 g' (List.mem_cons_of_mem _ hg'))
      (fun g' hg' => h3 g' (List.mem_cons_of_mem _ hg'))
    simp only [List.foldr_cons, List.map_append, List.map_cons, hrest]
    unfold pickLatest
    rw [hrt]
    simp [hrsource]

/-- C10: get_latest_notifications_by_source returns exactly one
notification per distinct source (the returned sources are duplicate-free
and cover exactly the input's sources), each returned notification is one
of the input's and carries the maximum parsed created timestamp among its
source's notifications, and the empty input yields the empty result. -/
theorem get_latest_by_source_correct (notifications : List Notification) :
    (get_latest_notifications_by_source [] = ([] : List Notification)) ∧
    ((get_latest_notifications_by_source notifications).map
      (fun r => r.source)).Nodup ∧
    (∀ src : String, (∃ n ∈ notifications, n.source = src) ↔
      (∃ r ∈ get_latest_notifications_by_source notifications, r.source = src)) ∧
    (∀ r ∈ get_latest_notifications_by_source notifications,
      r ∈ notifications ∧
      ∀ n ∈ notifications, n.source = r.source → n.created ≤ r.created) := by
  obtain ⟨h1, h2, h3, h4, h5, h6⟩ := groupBySource_props notifications
  refine ⟨rfl, ?_, ?_, ?_⟩
  · unfold get_latest_notifications_by_source
    rw [result_sources _ h1 h3]
    exact h4
  · intro src
    constructor
    · intro ⟨n, hn, hsrc⟩
      obtain ⟨g, hgmem, hgkey⟩ := h6 n hn
      have hne : sortByCreatedDesc g.2 ≠ [] := sortDesc_ne_nil _ (h3 g hgmem)
      obtain ⟨r, t, hrt⟩ : ∃ r t, sortByCreatedDesc g.2 = r :: t := by
        cases hs : sortByCreatedDesc g.2 with
        | nil => exact absurd hs hne
        | cons r t => exact ⟨r, t, rfl⟩
      refine ⟨r, ?_, ?_⟩
      · unfold get_latest_notifications_by_source
        rw [result_mem]
        exact ⟨g, hgmem, t, hrt⟩
      · have : r.source = g.1 := h1 g hgmem r (sortDesc_head_mem _ _ _ hrt)
        rw [this, hgkey, hsrc]
    · intro ⟨r, hr, hsrc⟩
      unfold get_latest_notifications_by_source at hr
      rw [result_mem] at hr
      obtain ⟨g, hgmem, t, ht⟩ := hr
      have hrg : r ∈ g.2 := sortDesc_head_mem _ _ _ ht
      exact ⟨r, h2 g hgmem r hrg, hsrc⟩
  · intro r hr
    unfold get_latest_notifications_by_source at hr
    rw [result_mem] at hr
    obtain ⟨g, hgmem, t, ht⟩ := hr
    have hrg : r ∈ g.2 := sortDesc_head_mem _ _ _ ht
    refine ⟨h2 g hgmem r hrg, ?_⟩
    intro n hn hsame
    have hrkey : r.source = g.1 := h1 g hgmem r hrg
    have hng : n ∈ g.2 := h5 n hn g hgmem (by rw [hrkey] at hsame; exact hsame.symm)
    exact sortDesc_head_max _ _ _ ht n hng

/-- C10 witness: the docstring example of helper.py — two Twitter
notifications and one Email notification; the later tweet and the email
are returned. -/
theorem get_latest_by_source_correct_witness :
    (∃ r ∈ get_latest_notifications_by_source c10Notifs, r.source = "Twitter") ∧
    ∀ r ∈ get_latest_notifications_by_source c10Notifs,
      r ∈ c10Notifs ∧
      ∀ n ∈ c10Notifs, n.source = r.source → n.created ≤ r.created := by
  have h := get_latest_by_source_correct c10Notifs
  refine ⟨?_, h.2.2.2⟩
  exact (h.2.2.1 "Twitter").mp ⟨c10Notifs[0], by decide, by decide⟩

end SecFlow
